import Mathlib

/-!
# Rock Ridge (RRIP) SUSP entry parser of the MINIX isofs driver

A shallow embedding of `minix/fs/isofs/susp_rock_ridge.c`.

* Bytes are natural numbers (a well-formed byte is `< 256`).
* A `char *buffer` argument is the list of the bytes found at that address;
  a byte past the end of the list reads as `0`.
* The two text buffers of a directory record are the bytes found at the
  address of the array: the first `ISO9660_RRIP_MAX_FILE_ID_LEN` bytes are the
  array itself, any further bytes are the memory that follows it.  A store is
  `List.set`, so a store past the array shows as a change of those bytes.
* `int` values that can be negative (`length`) are integers, indices are
  natural numbers.
-/

namespace Isofs

/-! ## Host environment -/

/-- Return value of `parse_susp_rock_ridge`: `OK` or `EINVAL`. -/
inductive Status where
  | OK
  | EINVAL
deriving DecidableEq, Repr

/-- The fields of `struct rrii_dir_record` that the parser touches. -/
structure rrii_dir_record where
  d_mode : Nat
  uid : Nat
  gid : Nat
  rdev : Nat
  birthtime : List Nat
  mtime : List Nat
  atime : List Nat
  ctime : List Nat
  file_id_rrip : List Nat
  slink_rrip : List Nat
deriving DecidableEq, Repr

/-- Modelled from the spec: the constant `ISO9660_SIZE_DATE7` of the driver
headers, which the spec gives as 7. -/
def ISO9660_SIZE_DATE7 : Nat := 7

/-- Modelled from the spec: the file-type mask `_S_IFMT` of `<sys/stat.h>`
(not among the sources); the POSIX value. -/
def S_IFMT : Nat := 0o170000

/-- Modelled from the spec: character-device type bits of `<sys/stat.h>`. -/
def S_IFCHR : Nat := 0o020000

/-- Modelled from the spec: block-device type bits of `<sys/stat.h>`. -/
def S_IFBLK : Nat := 0o060000

/-- Modelled from the spec: regular-file type bits of `<sys/stat.h>`. -/
def S_IFREG : Nat := 0o100000

/-- Modelled from the spec: directory type bits of `<sys/stat.h>`. -/
def S_IFDIR : Nat := 0o040000

/-- Modelled from the spec: symbolic-link type bits of `<sys/stat.h>`. -/
def S_IFLNK : Nat := 0o120000

/-- The byte `*((u8_t*)buffer + i)`. -/
def rd8 (buffer : List Nat) (i : Nat) : Nat := buffer.getD i 0

/-- The word `*((u32_t*)(buffer + i))` on a little-endian host. -/
def rd32 (buffer : List Nat) (i : Nat) : Nat :=
  rd8 buffer i + 256 * rd8 buffer (i + 1) + 65536 * rd8 buffer (i + 2)
    + 16777216 * rd8 buffer (i + 3)

/-- Number of bytes before the first NUL: `strlen` on the bytes at an address. -/
def strlen : List Nat → Nat
  | [] => 0
  | b :: bs => if b = 0 then 0 else strlen bs + 1

/-- Store the bytes `bs` one after the other from index `p` on. -/
def writeBytes : List Nat → Nat → List Nat → List Nat
  | m, _, [] => m
  | m, p, b :: bs => writeBytes (m.set p b) (p + 1) bs

/-- The bytes before the first NUL (the text of a C string). -/
def cstr : List Nat → List Nat
  | [] => []
  | b :: bs => if b = 0 then [] else b :: cstr bs

/-- Libc `strlcpy(dst + p, src + q, siz)`: copies at most `siz - 1` bytes of
the string at `src + q` and terminates the copy with a NUL. -/
def strlcpy (dst : List Nat) (p : Nat) (src : List Nat) (q : Nat) (siz : Nat) : List Nat :=
  if siz = 0 then dst
  else writeBytes dst p ((cstr (src.drop q)).take (siz - 1) ++ [0])

/-- Libc `strcat(dst + p, lit)`: appends `lit` and a NUL at the end of the
string that starts at `dst + p`. -/
def strcat (dst : List Nat) (p : Nat) (lit : List Nat) : List Nat :=
  writeBytes dst (p + strlen (dst.drop p)) (lit ++ [0])

/-- The `ISO9660_SIZE_DATE7` bytes that `memcpy(field, buffer + off, 7)` stores. -/
def memcpy7 (buffer : List Nat) (off : Nat) : List Nat :=
  (List.range ISO9660_SIZE_DATE7).map (fun i => rd8 buffer (off + i))

/-! ## `parse_susp_rock_ridge_sl` -/

/-- The `switch (flags & 0xF)` of one loop iteration, on the link buffer
`slink` with `slink_size` computed by the separator step.  The result is the
new buffer and whether the loop goes on (`false` is a `return`). -/
def sl_switch (C : Nat) (buffer : List Nat) (length : Int) (offset : Nat)
    (flags component_length : Nat) (slink : List Nat) (slink_size : Nat) :
    List Nat × Bool :=
  if flags &&& 0xF = 0 ∨ flags &&& 0xF = 1 then
    if (component_length : Int) > length - offset ∨
        slink_size + component_length + 1 ≥ C then (slink, false)
    else (strlcpy slink slink_size buffer (offset + 2) (component_length + 1), true)
  else if flags &&& 0xF = 2 then
    if slink_size + 2 ≥ C then (slink, false)
    else (strcat slink slink_size [46], true)
  else if flags &&& 0xF = 4 then
    if slink_size + 3 ≥ C then (slink, false)
    else (strcat slink slink_size [46, 46], true)
  else if flags &&& 0xF = 8 then
    if slink_size + 2 ≥ C then (slink, false)
    else (strcat slink slink_size [47], true)
  else (slink, false)

/-- One iteration of the `while` loop: the separator step, then the switch. -/
def sl_iter (C : Nat) (buffer : List Nat) (length : Int) (offset : Nat)
    (slink : List Nat) : List Nat × Bool :=
  let flags := rd8 buffer offset
  let component_length := rd8 buffer (offset + 1)
  if rd8 slink 0 ≠ 0 then
    let slink_size := strlen slink
    if slink_size + 2 ≥ C then (slink, false)
    else
      sl_switch C buffer length offset flags component_length
        (slink.set slink_size 47) (slink_size + 1)
  else
    sl_switch C buffer length offset flags component_length slink (strlen slink)

/-- The `while (offset + 2 <= length)` loop, from the cursor `offset`. -/
def sl_loop (C : Nat) (buffer : List Nat) (length : Int) (offset : Nat)
    (slink : List Nat) : List Nat :=
  if (offset : Int) + 2 ≤ length then
    if (sl_iter C buffer length offset slink).2 then
      sl_loop C buffer length (offset + (rd8 buffer (offset + 1) + 2))
        (sl_iter C buffer length offset slink).1
    else (sl_iter C buffer length offset slink).1
  else slink
termination_by (length - offset).toNat
decreasing_by omega

/-- The function `parse_susp_rock_ridge_sl(dir, buffer, length)`. -/
def parse_susp_rock_ridge_sl (C : Nat) (dir : rrii_dir_record) (buffer : List Nat)
    (length : Int) : rrii_dir_record :=
  { dir with slink_rrip := sl_loop C buffer length 0 dir.slink_rrip }

/-! ## `parse_susp_rock_ridge` -/

/-- One timestamp step of the TF branch: when the flag bit is set and the
7 bytes fit, the field takes the bytes at the running offset, which advances. -/
def tf_step (buffer : List Nat) (susp_length rrii_tf_flags bit : Nat)
    (field : List Nat) (rrii_tf_offset : Nat) : List Nat × Nat :=
  if rrii_tf_flags &&& (1 <<< bit) ≠ 0 ∧
      rrii_tf_offset + ISO9660_SIZE_DATE7 ≤ susp_length then
    (memcpy7 buffer rrii_tf_offset, rrii_tf_offset + ISO9660_SIZE_DATE7)
  else (field, rrii_tf_offset)

/-- The function `parse_susp_rock_ridge(dir, buffer)`; `makedev` is the host
macro of that name and `C` the constant `ISO9660_RRIP_MAX_FILE_ID_LEN`. -/
def parse_susp_rock_ridge (C : Nat) (makedev : Nat → Nat → Nat)
    (dir : rrii_dir_record) (buffer : List Nat) : Status × rrii_dir_record :=
  let sig0 := rd8 buffer 0
  let sig1 := rd8 buffer 1
  let susp_length := rd8 buffer 2
  let susp_version := rd8 buffer 3
  -- 'P' 'X'
  if sig0 = 80 ∧ sig1 = 88 ∧ susp_length ≥ 36 ∧ susp_version ≥ 1 then
    let rrii_px_posix_mode := rd32 buffer 4
    let t := rrii_px_posix_mode &&& S_IFMT
    let d_mode :=
      if t = S_IFCHR ∨ t = S_IFBLK ∨ t = S_IFREG ∨ t = S_IFDIR ∨ t = S_IFLNK then
        rrii_px_posix_mode &&& S_IFMT
      else dir.d_mode &&& S_IFMT
    (Status.OK, { dir with
      d_mode := d_mode ||| (rrii_px_posix_mode &&& 0o7777)
      uid := rd32 buffer 20
      gid := rd32 buffer 28 })
  -- 'P' 'N'
  else if sig0 = 80 ∧ sig1 = 78 ∧ susp_length ≥ 20 ∧ susp_version ≥ 1 then
    (Status.OK, { dir with rdev := makedev (rd32 buffer 4) (rd32 buffer 12) })
  -- 'S' 'L'
  else if sig0 = 83 ∧ sig1 = 76 ∧ susp_length > 5 ∧ susp_version ≥ 1 then
    (Status.OK, parse_susp_rock_ridge_sl C dir (buffer.drop 5) ((susp_length : Int) - 5))
  -- 'N' 'M'
  else if sig0 = 78 ∧ sig1 = 77 ∧ susp_length > 5 ∧ susp_version ≥ 1 then
    let rrii_name_current_size := strlen dir.file_id_rrip
    let rrii_name_append_size := susp_length - 5
    if rrii_name_current_size + rrii_name_append_size + 1 < C then
      (Status.OK, { dir with
        file_id_rrip := strlcpy dir.file_id_rrip rrii_name_current_size buffer 5
          (rrii_name_append_size + 1) })
    else (Status.OK, dir)
  -- 'C' 'L'
  else if sig0 = 67 ∧ sig1 = 76 then (Status.OK, dir)
  -- 'P' 'L'
  else if sig0 = 80 ∧ sig1 = 76 then (Status.OK, dir)
  -- 'R' 'E'
  else if sig0 = 82 ∧ sig1 = 69 then (Status.OK, dir)
  -- 'T' 'F'
  else if sig0 = 84 ∧ sig1 = 70 ∧ susp_length ≥ 5 ∧ susp_version ≥ 1 then
    let rrii_tf_flags := rd8 buffer 5
    if rrii_tf_flags &&& (1 <<< 7) ≠ 0 then (Status.OK, dir)
    else
      let b := tf_step buffer susp_length rrii_tf_flags 0 dir.birthtime 5
      let m := tf_step buffer susp_length rrii_tf_flags 1 dir.mtime b.2
      let a := tf_step buffer susp_length rrii_tf_flags 2 dir.atime m.2
      let c := tf_step buffer susp_length rrii_tf_flags 3 dir.ctime a.2
      (Status.OK, { dir with birthtime := b.1, mtime := m.1, atime := a.1, ctime := c.1 })
  -- 'S' 'F'
  else if sig0 = 83 ∧ sig1 = 70 then (Status.OK, dir)
  else (Status.EINVAL, dir)

/-! ## Auxiliary definitions for the statements -/

/-- A text without NUL byte. -/
def NulFree (s : List Nat) : Prop := ∀ b ∈ s, b ≠ 0

/-- Whether a text is NUL-free can be computed. -/
instance NulFree_decidable (s : List Nat) : Decidable (NulFree s) := by
  unfold NulFree; infer_instance

/-- The memory at a text buffer of capacity `C` that holds the text `s`, is
zero-filled after it, and is followed in memory by the bytes `tail`. -/
def zbuf (C : Nat) (s tail : List Nat) : List Nat :=
  s ++ List.replicate (C - s.length) 0 ++ tail

/-- What `sl_switch` does, told on the text `s` that a zero-filled link buffer
holds instead of on the buffer; `sl_switch_zbuf` proves that the two agree. -/
def sl_switch_txt (C : Nat) (buffer : List Nat) (length : Int) (offset : Nat)
    (flags component_length : Nat) (s : List Nat) : List Nat × Bool :=
  if flags &&& 0xF = 0 ∨ flags &&& 0xF = 1 then
    if (component_length : Int) > length - offset ∨
        s.length + component_length + 1 ≥ C then (s, false)
    else (s ++ (cstr (buffer.drop (offset + 2))).take component_length, true)
  else if flags &&& 0xF = 2 then
    if s.length + 2 ≥ C then (s, false) else (s ++ [46], true)
  else if flags &&& 0xF = 4 then
    if s.length + 3 ≥ C then (s, false) else (s ++ [46, 46], true)
  else if flags &&& 0xF = 8 then
    if s.length + 2 ≥ C then (s, false) else (s ++ [47], true)
  else (s, false)

/-- What `sl_iter` does, told on the text `s` that a zero-filled link buffer
holds instead of on the buffer; `sl_iter_zbuf` proves that the two agree. -/
def sl_iter_txt (C : Nat) (buffer : List Nat) (length : Int) (offset : Nat)
    (s : List Nat) : List Nat × Bool :=
  if s ≠ [] then
    if s.length + 2 ≥ C then (s, false)
    else sl_switch_txt C buffer length offset (rd8 buffer offset) (rd8 buffer (offset + 1))
      (s ++ [47])
  else sl_switch_txt C buffer length offset (rd8 buffer offset) (rd8 buffer (offset + 1)) s

/-- The state after the calls of `parse_susp_rock_ridge` on the entries of a
list, in order, each call on the record left by the previous one. -/
def run (C : Nat) (makedev : Nat → Nat → Nat) (dir : rrii_dir_record)
    (entries : List (List Nat)) : rrii_dir_record :=
  entries.foldl (fun d e => (parse_susp_rock_ridge C makedev d e).2) dir

/-- The memory at a text buffer is a text below the capacity `C`, zero-filled
up to the capacity and followed by `tail`. -/
def BufInv (C : Nat) (tail buf : List Nat) : Prop :=
  ∃ s, NulFree s ∧ s.length < C ∧ buf = zbuf C s tail

/-- The entries that the dispatch table of the spec accepts: a tag CL, PL, RE
or SF with any length and version, or PX with length at least 36, PN with
length at least 20, SL or NM with length above 5, TF with length at least 5,
each with version at least 1. -/
def accepted (buffer : List Nat) : Prop :=
  ((rd8 buffer 0 = 67 ∧ rd8 buffer 1 = 76) ∨ (rd8 buffer 0 = 80 ∧ rd8 buffer 1 = 76) ∨
    (rd8 buffer 0 = 82 ∧ rd8 buffer 1 = 69) ∨ (rd8 buffer 0 = 83 ∧ rd8 buffer 1 = 70)) ∨
  (rd8 buffer 0 = 80 ∧ rd8 buffer 1 = 88 ∧ rd8 buffer 2 ≥ 36 ∧ rd8 buffer 3 ≥ 1) ∨
  (rd8 buffer 0 = 80 ∧ rd8 buffer 1 = 78 ∧ rd8 buffer 2 ≥ 20 ∧ rd8 buffer 3 ≥ 1) ∨
  (((rd8 buffer 0 = 83 ∧ rd8 buffer 1 = 76) ∨ (rd8 buffer 0 = 78 ∧ rd8 buffer 1 = 77)) ∧
    rd8 buffer 2 > 5 ∧ rd8 buffer 3 ≥ 1) ∨
  (rd8 buffer 0 = 84 ∧ rd8 buffer 1 = 70 ∧ rd8 buffer 2 ≥ 5 ∧ rd8 buffer 3 ≥ 1)

/-- Whether an entry is accepted can be computed. -/
instance accepted_decidable (buffer : List Nat) : Decidable (accepted buffer) := by
  unfold accepted; infer_instance

/-- The text of an SL component as the claim gives it: the component bytes for
flag values 0 and 1, "." for 2, ".." for 4 and "/" for 8. -/
def sl_text (flags : Nat) (bytes : List Nat) : List Nat :=
  if flags &&& 0xF = 2 then [46]
  else if flags &&& 0xF = 4 then [46, 46]
  else if flags &&& 0xF = 8 then [47]
  else bytes

/-- The step of the reference fold: a "/" after a non-empty text, then the
text of the component `(flags, bytes)`. -/
def sl_step (cur : List Nat) (comp : Nat × List Nat) : List Nat :=
  (if cur = [] then cur else cur ++ [47]) ++ sl_text comp.1 comp.2

/-- The reference semantics of an SL payload: the fold of `sl_step` over its
components, from the text `s`. -/
def sl_fold (s : List Nat) (comps : List (Nat × List Nat)) : List Nat :=
  comps.foldl sl_step s

/-- The payload that is the concatenation of the sub-records
`[flags, component_length, component bytes]` of the components. -/
def sl_payload : List (Nat × List Nat) → List Nat
  | [] => []
  | c :: cs => c.1 :: c.2.length :: (c.2 ++ sl_payload cs)

/-- A sample device-number composition, that of the NetBSD `makedev` macro,
to stand for the host macro in examples. -/
def makedev_sample (major minor : Nat) : Nat :=
  ((major <<< 8) &&& 0x000fff00) ||| ((minor <<< 12) &&& 0xfff00000) ||| (minor &&& 0x000000ff)

/-- A sample record: mode of a regular file, zeroed timestamps, and the two
text buffers of capacity `C` holding the texts `name` and `link`. -/
def sample_dir (C : Nat) (name link : List Nat) : rrii_dir_record :=
  { d_mode := 0o100644, uid := 0, gid := 0, rdev := 0,
    birthtime := List.replicate 7 0, mtime := List.replicate 7 0,
    atime := List.replicate 7 0, ctime := List.replicate 7 0,
    file_id_rrip := zbuf C name [], slink_rrip := zbuf C link [] }

/-- The payload of an NM entry: the bytes from offset 5 up to the total length
(byte 2) of the entry. -/
def nm_payload (buffer : List Nat) : List Nat :=
  (buffer.drop 5).take (rd8 buffer 2 - 5)

/-- The concatenation of the payloads of a list of NM entries. -/
def nm_payloads : List (List Nat) → List Nat
  | [] => []
  | e :: es => nm_payload e ++ nm_payloads es

/-- A sample sequence of entries: NM "alpha", SL with the component "abc", an entry
of the unknown tag "ZZ", SL with a component of flag value 3, NM "beta". -/
def sample_entries : List (List Nat) :=
  [[78, 77, 10, 1, 0, 97, 108, 112, 104, 97],
   [83, 76, 10, 1, 0, 0, 3, 97, 98, 99],
   [90, 90, 4, 1],
   [83, 76, 7, 1, 0, 3, 0],
   [78, 77, 9, 1, 0, 98, 101, 116, 97]]

/-- The value 1 when bit `b` of the TF flags byte is set, 0 otherwise. -/
def tf_bit (flags b : Nat) : Nat :=
  if flags &&& (1 <<< b) ≠ 0 then 1 else 0

/-- The number of set bits among the bits below `b` of the TF flags byte. -/
def tf_count (flags : Nat) : Nat → Nat
  | 0 => 0
  | b + 1 => tf_count flags b + tf_bit flags b

/-- The value that a timestamp field has after a short-format TF entry, as the
claims give it: the field of a set bit `b` that is among the first `k` set bits
takes the 7 bytes at offset `5 + 7 * (number of set bits below b)`, any other
field keeps its value `old`. -/
def tf_field (buffer : List Nat) (flags k b : Nat) (old : List Nat) : List Nat :=
  if tf_bit flags b = 1 ∧ tf_count flags b < k then
    memcpy7 buffer (5 + 7 * tf_count flags b)
  else old

/-- The loop of `sl_loop` with a counter: the final link buffer and the number of
iterations of the `while` loop that were entered (an iteration that ends in a `return`
counts). -/
def sl_loop_traced (C : Nat) (buffer : List Nat) (length : Int) (offset : Nat)
    (slink : List Nat) : List Nat × Nat :=
  if (offset : Int) + 2 ≤ length then
    if (sl_iter C buffer length offset slink).2 then
      ((sl_loop_traced C buffer length (offset + (rd8 buffer (offset + 1) + 2))
          (sl_iter C buffer length offset slink).1).1,
       (sl_loop_traced C buffer length (offset + (rd8 buffer (offset + 1) + 2))
          (sl_iter C buffer length offset slink).1).2 + 1)
    else ((sl_iter C buffer length offset slink).1, 1)
  else (slink, 0)
termination_by (length - offset).toNat
decreasing_by all_goals omega

/-- A sample record whose link buffer of capacity 256 holds "a", a NUL and then 254
bytes "x" instead of zeros, and is followed in memory by two zero bytes. -/
def sample_dir_unfilled : rrii_dir_record :=
  { sample_dir 256 [] [] with
    slink_rrip := 97 :: 0 :: (List.replicate 254 120 ++ [0, 0]) }

/-- The four bytes of a 32-bit value, least significant first. -/
def le32 (n : Nat) : List Nat :=
  [n % 256, n / 256 % 256, n / 65536 % 256, n / 16777216 % 256]

/-- A sample PX entry of length 36 and version 1: mode, link count 1, uid and gid,
each as a both-endian pair of 32-bit values (least significant byte first, then most
significant byte first). -/
def px_entry (m u g : Nat) : List Nat :=
  [80, 88, 36, 1] ++ le32 m ++ (le32 m).reverse ++ le32 1 ++ (le32 1).reverse
    ++ le32 u ++ (le32 u).reverse ++ le32 g ++ (le32 g).reverse

/-! ## Buffer lemmas -/

theorem strlen_append_zero (s rest : List Nat) (hs : NulFree s) :
    strlen (s ++ 0 :: rest) = s.length := by
  induction s with
  | nil => simp [strlen]
  | cons b bs ih =>
    have hb : b ≠ 0 := hs b (by simp)
    have hbs : NulFree bs := fun x hx => hs x (by simp [hx])
    simp [strlen, hb, ih hbs]

theorem cstr_append (s rest : List Nat) (hs : NulFree s) :
    cstr (s ++ rest) = s ++ cstr rest := by
  induction s with
  | nil => simp
  | cons b bs ih =>
    have hb : b ≠ 0 := hs b (by simp)
    have hbs : NulFree bs := fun x hx => hs x (by simp [hx])
    simp [cstr, hb, ih hbs]

theorem cstr_nulFree (l : List Nat) : NulFree (cstr l) := by
  induction l with
  | nil => intro b hb; simp [cstr] at hb
  | cons a as ih =>
    intro b hb
    by_cases ha : a = 0
    · simp [cstr, ha] at hb
    · simp [cstr, ha] at hb
      rcases hb with rfl | hb
      · exact ha
      · exact ih b hb

theorem NulFree.append {s w : List Nat} (hs : NulFree s) (hw : NulFree w) :
    NulFree (s ++ w) := by
  intro b hb
  rcases List.mem_append.mp hb with h | h
  · exact hs b h
  · exact hw b h

theorem nulFree_take_cstr (l : List Nat) (n : Nat) : NulFree ((cstr l).take n) :=
  fun b hb => cstr_nulFree l b (List.mem_of_mem_take hb)

theorem take_cstr_append (bytes rest : List Nat) (hb : NulFree bytes) :
    (cstr (bytes ++ rest)).take bytes.length = bytes := by
  rw [cstr_append bytes rest hb, List.take_left]

theorem length_cstr (m : List Nat) : (cstr m).length = strlen m := by
  induction m with
  | nil => rfl
  | cons b bs ih =>
    by_cases hb : b = 0
    · simp [cstr, strlen, hb]
    · simp [cstr, strlen, hb, ih]

theorem cstr_append_drop (m : List Nat) : cstr m ++ m.drop (strlen m) = m := by
  induction m with
  | nil => rfl
  | cons b bs ih =>
    by_cases hb : b = 0
    · simp [cstr, strlen, hb]
    · simp [cstr, strlen, hb, ih]

theorem writeBytes_append (bs : List Nat) : ∀ (a x c : List Nat), x.length = bs.length →
    writeBytes (a ++ x ++ c) a.length bs = a ++ bs ++ c := by
  induction bs with
  | nil =>
    intro a x c h
    have : x = [] := List.length_eq_zero.mp h
    simp [writeBytes, this]
  | cons b bs ih =>
    intro a x c h
    cases x with
    | nil => simp at h
    | cons x0 xs =>
      have h1 : (a ++ x0 :: xs ++ c).set a.length b = (a ++ [b]) ++ xs ++ c := by
        simp [List.set_append]
      have h2 : xs.length = bs.length := by simpa using h
      have := ih (a ++ [b]) xs c h2
      simp only [writeBytes, h1]
      simpa using this

theorem writeBytes_length (bs : List Nat) : ∀ (m : List Nat) (p : Nat),
    (writeBytes m p bs).length = m.length := by
  induction bs with
  | nil => intro m p; rfl
  | cons b bs ih => intro m p; simp [writeBytes, ih]

/-- Writing a NUL-free text and a NUL at the end of the string of a buffer that has
room for them appends the text to the string. -/
theorem cstr_writeBytes_end (m w : List Nat) (hw : NulFree w)
    (h : strlen m + w.length + 1 ≤ m.length) :
    cstr (writeBytes m (strlen m) (w ++ [0])) = cstr m ++ w := by
  have hm := cstr_append_drop m
  have hl := length_cstr m
  have hd : (m.drop (strlen m)).length = m.length - strlen m := List.length_drop _ _
  have hx : ((m.drop (strlen m)).take (w.length + 1)).length = (w ++ [0]).length := by
    simp only [List.length_take, List.length_append, List.length_singleton, hd]
    omega
  have e : m = cstr m ++ (m.drop (strlen m)).take (w.length + 1)
      ++ (m.drop (strlen m)).drop (w.length + 1) := by
    rw [List.append_assoc, List.take_append_drop, hm]
  have hw2 := writeBytes_append (w ++ [0]) (cstr m) _ ((m.drop (strlen m)).drop (w.length + 1)) hx
  rw [hl, ← e] at hw2
  rw [hw2, ← List.append_assoc, List.append_assoc _ [0], cstr_append _ _ ((cstr_nulFree m).append hw)]
  simp [cstr]

theorem rd8_append (pre l : List Nat) (i : Nat) :
    rd8 (pre ++ l) (pre.length + i) = rd8 l i := by
  unfold rd8
  rw [List.getD_eq_getElem?_getD, List.getD_eq_getElem?_getD,
    List.getElem?_append_right (Nat.le_add_right _ _), Nat.add_sub_cancel_left]

theorem zbuf_split (C : Nat) (s tail : List Nat) (k : Nat) (h : s.length + k ≤ C) :
    zbuf C s tail = s ++ List.replicate k 0 ++ (List.replicate (C - s.length - k) 0 ++ tail) := by
  have e : List.replicate (C - s.length) 0
      = List.replicate k 0 ++ List.replicate (C - s.length - k) 0 := by
    rw [← List.replicate_add]
    congr 1
    omega
  unfold zbuf
  rw [e]
  simp only [List.append_assoc]

theorem length_zbuf (C : Nat) (s tail : List Nat) (h : s.length ≤ C) :
    (zbuf C s tail).length = C + tail.length := by
  simp only [zbuf, List.length_append, List.length_replicate]
  omega

theorem writeBytes_zbuf (C : Nat) (s tail w : List Nat) (h : s.length + w.length + 1 ≤ C) :
    writeBytes (zbuf C s tail) s.length (w ++ [0]) = zbuf C (s ++ w) tail := by
  rw [zbuf_split C s tail (w.length + 1) (by omega)]
  rw [writeBytes_append _ _ _ _ (by simp)]
  unfold zbuf
  have : C - (s ++ w).length = (C - s.length - (w.length + 1)) + 1 := by simp; omega
  rw [this, List.replicate_succ]
  simp [List.append_assoc]

theorem set_zbuf (C : Nat) (s tail : List Nat) (c : Nat) (h : s.length < C) :
    (zbuf C s tail).set s.length c = zbuf C (s ++ [c]) tail := by
  rw [zbuf_split C s tail 1 (by omega)]
  unfold zbuf
  have : C - (s ++ [c]).length = C - s.length - 1 := by simp; omega
  rw [this]
  simp [List.set_append]

theorem strlen_zbuf (C : Nat) (s tail : List Nat) (hs : NulFree s) (h : s.length < C) :
    strlen (zbuf C s tail) = s.length := by
  rw [zbuf_split C s tail 1 (by omega)]
  simpa using strlen_append_zero s _ hs

theorem cstr_zbuf (C : Nat) (s tail : List Nat) (hs : NulFree s) (h : s.length < C) :
    cstr (zbuf C s tail) = s := by
  rw [zbuf_split C s tail 1 (by omega), List.append_assoc, cstr_append s _ hs]
  simp [cstr]

theorem strlen_drop_zbuf (C : Nat) (s tail : List Nat) (h : s.length < C) :
    strlen ((zbuf C s tail).drop s.length) = 0 := by
  rw [zbuf_split C s tail 1 (by omega)]
  simp [strlen]

theorem rd8_zbuf_zero (C : Nat) (s tail : List Nat) (hs : NulFree s) (h : s.length < C) :
    rd8 (zbuf C s tail) 0 ≠ 0 ↔ s ≠ [] := by
  cases s with
  | nil =>
    rw [zbuf_split C [] tail 1 (by simpa using h)]
    simp [rd8]
  | cons b bs =>
    have hb : b ≠ 0 := hs b (by simp)
    simp [zbuf, rd8, hb]

theorem strcat_zbuf (C : Nat) (s tail lit : List Nat) (h : s.length + lit.length + 1 ≤ C) :
    strcat (zbuf C s tail) s.length lit = zbuf C (s ++ lit) tail := by
  unfold strcat
  rw [strlen_drop_zbuf C s tail (by omega)]
  exact writeBytes_zbuf C s tail lit h

theorem strlcpy_zbuf (C : Nat) (s tail src : List Nat) (q n : Nat) (h : s.length + n + 1 ≤ C) :
    strlcpy (zbuf C s tail) s.length src q (n + 1)
      = zbuf C (s ++ (cstr (src.drop q)).take n) tail := by
  unfold strlcpy
  simp only [Nat.add_one_ne_zero, if_false, Nat.add_sub_cancel]
  apply writeBytes_zbuf
  have := List.length_take_le n (cstr (src.drop q))
  omega

/-! ## The SL loop on a zero-filled buffer -/

theorem sl_switch_zbuf (C : Nat) (buffer : List Nat) (length : Int) (offset : Nat)
    (flags cl : Nat) (s tail : List Nat) :
    sl_switch C buffer length offset flags cl (zbuf C s tail) s.length
      = (zbuf C (sl_switch_txt C buffer length offset flags cl s).1 tail,
         (sl_switch_txt C buffer length offset flags cl s).2) := by
  unfold sl_switch sl_switch_txt
  split_ifs with h1 h2 h3 h4 h5 h6 h7 h8
  · rfl
  · rw [strlcpy_zbuf C s tail buffer (offset + 2) cl (by omega)]
  · rfl
  · rw [strcat_zbuf C s tail [46] (by simp; omega)]
  · rfl
  · rw [strcat_zbuf C s tail [46, 46] (by simp; omega)]
  · rfl
  · rw [strcat_zbuf C s tail [47] (by simp; omega)]
  · rfl

theorem sl_iter_zbuf (C : Nat) (buffer : List Nat) (length : Int) (offset : Nat)
    (s tail : List Nat) (hs : NulFree s) (h : s.length < C) :
    sl_iter C buffer length offset (zbuf C s tail)
      = (zbuf C (sl_iter_txt C buffer length offset s).1 tail,
         (sl_iter_txt C buffer length offset s).2) := by
  unfold sl_iter sl_iter_txt
  simp only [rd8_zbuf_zero C s tail hs h, strlen_zbuf C s tail hs h]
  split_ifs with h1 h2
  · rfl
  · rw [set_zbuf C s tail 47 h]
    have := sl_switch_zbuf C buffer length offset (rd8 buffer offset) (rd8 buffer (offset + 1))
      (s ++ [47]) tail
    simpa using this
  · exact sl_switch_zbuf C buffer length offset _ _ s tail

/-- What one switch does to a text: it stays NUL-free and below the capacity,
and the old text is a prefix of the new one. -/
theorem sl_switch_txt_inv (C : Nat) (buffer : List Nat) (length : Int) (offset : Nat)
    (flags cl : Nat) (s : List Nat) (hs : NulFree s) (h : s.length < C) :
    NulFree (sl_switch_txt C buffer length offset flags cl s).1 ∧
    (sl_switch_txt C buffer length offset flags cl s).1.length < C ∧
    s <+: (sl_switch_txt C buffer length offset flags cl s).1 := by
  unfold sl_switch_txt
  split_ifs with h1 h2 h3 h4 h5 h6 h7 h8
  · exact ⟨hs, h, List.prefix_refl s⟩
  · refine ⟨hs.append (nulFree_take_cstr _ _), ?_, List.prefix_append _ _⟩
    have := List.length_take_le cl (cstr (buffer.drop (offset + 2)))
    simp only [List.length_append]
    omega
  · exact ⟨hs, h, List.prefix_refl s⟩
  · refine ⟨hs.append (by intro b hb; simp at hb; omega), ?_, List.prefix_append _ _⟩
    simp only [List.length_append, List.length_singleton]; omega
  · exact ⟨hs, h, List.prefix_refl s⟩
  · refine ⟨hs.append (by intro b hb; simp at hb; omega), ?_, List.prefix_append _ _⟩
    simp only [List.length_append, List.length_cons, List.length_nil]; omega
  · exact ⟨hs, h, List.prefix_refl s⟩
  · refine ⟨hs.append (by intro b hb; simp at hb; omega), ?_, List.prefix_append _ _⟩
    simp only [List.length_append, List.length_singleton]; omega
  · exact ⟨hs, h, List.prefix_refl s⟩

theorem sl_iter_txt_inv (C : Nat) (buffer : List Nat) (length : Int) (offset : Nat)
    (s : List Nat) (hs : NulFree s) (h : s.length < C) :
    NulFree (sl_iter_txt C buffer length offset s).1 ∧
    (sl_iter_txt C buffer length offset s).1.length < C ∧
    s <+: (sl_iter_txt C buffer length offset s).1 := by
  unfold sl_iter_txt
  split_ifs with h1 h2
  · exact ⟨hs, h, List.prefix_refl s⟩
  · have hs1 : NulFree (s ++ [47]) := hs.append (by intro b hb; simp at hb; omega)
    have hl : (s ++ [47]).length < C := by
      simp only [List.length_append, List.length_singleton]; omega
    obtain ⟨a, b, c⟩ := sl_switch_txt_inv C buffer length offset (rd8 buffer offset)
      (rd8 buffer (offset + 1)) (s ++ [47]) hs1 hl
    exact ⟨a, b, (List.prefix_append s [47]).trans c⟩
  · exact sl_switch_txt_inv C buffer length offset _ _ s hs h

/-- The loop keeps a zero-filled buffer zero-filled, below capacity, and only
extends its text. -/
theorem sl_loop_zbuf_inv (C : Nat) (buffer : List Nat) (length : Int) (tail : List Nat) :
    ∀ (n offset : Nat) (s : List Nat), (length - offset).toNat ≤ n → NulFree s →
      s.length < C →
      ∃ s', NulFree s' ∧ s'.length < C ∧ s <+: s' ∧
        sl_loop C buffer length offset (zbuf C s tail) = zbuf C s' tail := by
  intro n
  induction n with
  | zero =>
    intro offset s hn hs h
    refine ⟨s, hs, h, List.prefix_refl s, ?_⟩
    rw [sl_loop, if_neg (by omega)]
  | succ n ih =>
    intro offset s hn hs h
    rw [sl_loop]
    by_cases hc : (offset : Int) + 2 ≤ length
    · rw [if_pos hc, sl_iter_zbuf C buffer length offset s tail hs h]
      obtain ⟨a, b, c⟩ := sl_iter_txt_inv C buffer length offset s hs h
      by_cases hb : (sl_iter_txt C buffer length offset s).2 = true
      · simp only [hb, if_true]
        obtain ⟨s', a', b', c', d'⟩ := ih (offset + (rd8 buffer (offset + 1) + 2))
          (sl_iter_txt C buffer length offset s).1 (by push_cast; omega) a b
        exact ⟨s', a', b', c.trans c', d'⟩
      · simp only [hb]
        exact ⟨_, a, b, c, rfl⟩
    · rw [if_neg hc]
      exact ⟨s, hs, h, List.prefix_refl s, rfl⟩

/-! ## The branches of the dispatcher -/

/-- The PX branch of the dispatcher. -/
theorem parse_PX (C : Nat) (makedev : Nat → Nat → Nat) (dir : rrii_dir_record)
    (buffer : List Nat)
    (h : rd8 buffer 0 = 80 ∧ rd8 buffer 1 = 88 ∧ rd8 buffer 2 ≥ 36 ∧ rd8 buffer 3 ≥ 1) :
    parse_susp_rock_ridge C makedev dir buffer =
      (Status.OK, { dir with
        d_mode :=
          (if rd32 buffer 4 &&& S_IFMT = S_IFCHR ∨ rd32 buffer 4 &&& S_IFMT = S_IFBLK ∨
              rd32 buffer 4 &&& S_IFMT = S_IFREG ∨ rd32 buffer 4 &&& S_IFMT = S_IFDIR ∨
              rd32 buffer 4 &&& S_IFMT = S_IFLNK then rd32 buffer 4 &&& S_IFMT
            else dir.d_mode &&& S_IFMT) ||| (rd32 buffer 4 &&& 0o7777)
        uid := rd32 buffer 20
        gid := rd32 buffer 28 }) := by
  unfold parse_susp_rock_ridge
  simp only []
  rw [if_pos h]

/-- The PN branch of the dispatcher. -/
theorem parse_PN (C : Nat) (makedev : Nat → Nat → Nat) (dir : rrii_dir_record)
    (buffer : List Nat)
    (h : rd8 buffer 0 = 80 ∧ rd8 buffer 1 = 78 ∧ rd8 buffer 2 ≥ 20 ∧ rd8 buffer 3 ≥ 1) :
    parse_susp_rock_ridge C makedev dir buffer =
      (Status.OK, { dir with rdev := makedev (rd32 buffer 4) (rd32 buffer 12) }) := by
  unfold parse_susp_rock_ridge
  simp only []
  rw [if_neg (by omega), if_pos h]

/-- The SL branch of the dispatcher. -/
theorem parse_SL (C : Nat) (makedev : Nat → Nat → Nat) (dir : rrii_dir_record)
    (buffer : List Nat)
    (h : rd8 buffer 0 = 83 ∧ rd8 buffer 1 = 76 ∧ rd8 buffer 2 > 5 ∧ rd8 buffer 3 ≥ 1) :
    parse_susp_rock_ridge C makedev dir buffer =
      (Status.OK,
        parse_susp_rock_ridge_sl C dir (buffer.drop 5) ((rd8 buffer 2 : Int) - 5)) := by
  unfold parse_susp_rock_ridge
  simp only []
  rw [if_neg (by omega), if_neg (by omega), if_pos h]

/-- The NM branch of the dispatcher. -/
theorem parse_NM (C : Nat) (makedev : Nat → Nat → Nat) (dir : rrii_dir_record)
    (buffer : List Nat)
    (h : rd8 buffer 0 = 78 ∧ rd8 buffer 1 = 77 ∧ rd8 buffer 2 > 5 ∧ rd8 buffer 3 ≥ 1) :
    parse_susp_rock_ridge C makedev dir buffer =
      (Status.OK,
        if strlen dir.file_id_rrip + (rd8 buffer 2 - 5) + 1 < C then
          { dir with
            file_id_rrip := strlcpy dir.file_id_rrip (strlen dir.file_id_rrip) buffer 5
              (rd8 buffer 2 - 5 + 1) }
        else dir) := by
  unfold parse_susp_rock_ridge
  simp only []
  rw [if_neg (by omega), if_neg (by omega), if_neg (by omega), if_pos h]
  split_ifs <;> rfl

/-- The branches of the tags CL, PL, RE and SF, which have no gate. -/
theorem parse_skip (C : Nat) (makedev : Nat → Nat → Nat) (dir : rrii_dir_record)
    (buffer : List Nat)
    (h : (rd8 buffer 0 = 67 ∧ rd8 buffer 1 = 76) ∨ (rd8 buffer 0 = 80 ∧ rd8 buffer 1 = 76) ∨
      (rd8 buffer 0 = 82 ∧ rd8 buffer 1 = 69) ∨ (rd8 buffer 0 = 83 ∧ rd8 buffer 1 = 70)) :
    parse_susp_rock_ridge C makedev dir buffer = (Status.OK, dir) := by
  unfold parse_susp_rock_ridge
  simp only []
  rw [if_neg (by omega), if_neg (by omega), if_neg (by omega), if_neg (by omega)]
  rcases h with h | h | h | h
  · rw [if_pos h]
  · rw [if_neg (by omega), if_pos h]
  · rw [if_neg (by omega), if_neg (by omega), if_pos h]
  · rw [if_neg (by omega), if_neg (by omega), if_neg (by omega), if_neg (by omega), if_pos h]

/-- The TF branch of the dispatcher. -/
theorem parse_TF (C : Nat) (makedev : Nat → Nat → Nat) (dir : rrii_dir_record)
    (buffer : List Nat)
    (h : rd8 buffer 0 = 84 ∧ rd8 buffer 1 = 70 ∧ rd8 buffer 2 ≥ 5 ∧ rd8 buffer 3 ≥ 1) :
    parse_susp_rock_ridge C makedev dir buffer =
      (Status.OK,
        if rd8 buffer 5 &&& (1 <<< 7) ≠ 0 then dir
        else { dir with
          birthtime := (tf_step buffer (rd8 buffer 2) (rd8 buffer 5) 0 dir.birthtime 5).1
          mtime := (tf_step buffer (rd8 buffer 2) (rd8 buffer 5) 1 dir.mtime
            (tf_step buffer (rd8 buffer 2) (rd8 buffer 5) 0 dir.birthtime 5).2).1
          atime := (tf_step buffer (rd8 buffer 2) (rd8 buffer 5) 2 dir.atime
            (tf_step buffer (rd8 buffer 2) (rd8 buffer 5) 1 dir.mtime
              (tf_step buffer (rd8 buffer 2) (rd8 buffer 5) 0 dir.birthtime 5).2).2).1
          ctime := (tf_step buffer (rd8 buffer 2) (rd8 buffer 5) 3 dir.ctime
            (tf_step buffer (rd8 buffer 2) (rd8 buffer 5) 2 dir.atime
              (tf_step buffer (rd8 buffer 2) (rd8 buffer 5) 1 dir.mtime
                (tf_step buffer (rd8 buffer 2) (rd8 buffer 5) 0 dir.birthtime 5).2).2).2).1 }) := by
  unfold parse_susp_rock_ridge
  simp only []
  rw [if_neg (by omega), if_neg (by omega), if_neg (by omega), if_neg (by omega),
    if_neg (by omega), if_neg (by omega), if_neg (by omega), if_pos h]
  split_ifs <;> rfl

/-- The fall-through of the dispatcher: no branch condition holds. -/
theorem parse_other (C : Nat) (makedev : Nat → Nat → Nat) (dir : rrii_dir_record)
    (buffer : List Nat)
    (h1 : ¬ (rd8 buffer 0 = 80 ∧ rd8 buffer 1 = 88 ∧ rd8 buffer 2 ≥ 36 ∧ rd8 buffer 3 ≥ 1))
    (h2 : ¬ (rd8 buffer 0 = 80 ∧ rd8 buffer 1 = 78 ∧ rd8 buffer 2 ≥ 20 ∧ rd8 buffer 3 ≥ 1))
    (h3 : ¬ (rd8 buffer 0 = 83 ∧ rd8 buffer 1 = 76 ∧ rd8 buffer 2 > 5 ∧ rd8 buffer 3 ≥ 1))
    (h4 : ¬ (rd8 buffer 0 = 78 ∧ rd8 buffer 1 = 77 ∧ rd8 buffer 2 > 5 ∧ rd8 buffer 3 ≥ 1))
    (h5 : ¬ (rd8 buffer 0 = 84 ∧ rd8 buffer 1 = 70 ∧ rd8 buffer 2 ≥ 5 ∧ rd8 buffer 3 ≥ 1))
    (h6 : ¬ ((rd8 buffer 0 = 67 ∧ rd8 buffer 1 = 76) ∨ (rd8 buffer 0 = 80 ∧ rd8 buffer 1 = 76) ∨
      (rd8 buffer 0 = 82 ∧ rd8 buffer 1 = 69) ∨ (rd8 buffer 0 = 83 ∧ rd8 buffer 1 = 70))) :
    parse_susp_rock_ridge C makedev dir buffer = (Status.EINVAL, dir) := by
  unfold parse_susp_rock_ridge
  simp only []
  rw [if_neg h1, if_neg h2, if_neg h3, if_neg h4, if_neg (by omega), if_neg (by omega),
    if_neg (by omega), if_neg h5, if_neg (by omega)]

/-- An accepted entry is handled, any other entry is rejected with the record
as it was. -/
theorem parse_accepted_or_not (C : Nat) (makedev : Nat → Nat → Nat) (dir : rrii_dir_record)
    (buffer : List Nat) :
    (accepted buffer ∧ (parse_susp_rock_ridge C makedev dir buffer).1 = Status.OK) ∨
    (¬ accepted buffer ∧ parse_susp_rock_ridge C makedev dir buffer = (Status.EINVAL, dir)) := by
  by_cases h : accepted buffer
  · left
    refine ⟨h, ?_⟩
    rcases h with h | h | h | ⟨h | h, h'⟩ | h
    · rw [parse_skip C makedev dir buffer h]
    · rw [parse_PX C makedev dir buffer h]
    · rw [parse_PN C makedev dir buffer h]
    · rw [parse_SL C makedev dir buffer ⟨h.1, h.2, h'⟩]
    · rw [parse_NM C makedev dir buffer ⟨h.1, h.2, h'⟩]
    · rw [parse_TF C makedev dir buffer h]
  · right
    refine ⟨h, ?_⟩
    exact parse_other C makedev dir buffer
      (fun g => h (Or.inr (Or.inl g)))
      (fun g => h (Or.inr (Or.inr (Or.inl g))))
      (fun g => h (Or.inr (Or.inr (Or.inr (Or.inl ⟨Or.inl ⟨g.1, g.2.1⟩, g.2.2⟩)))))
      (fun g => h (Or.inr (Or.inr (Or.inr (Or.inl ⟨Or.inr ⟨g.1, g.2.1⟩, g.2.2⟩)))))
      (fun g => h (Or.inr (Or.inr (Or.inr (Or.inr g)))))
      (fun g => h (Or.inl g))

theorem parse_slink_rrip (C : Nat) (makedev : Nat → Nat → Nat) (dir : rrii_dir_record)
    (buffer : List Nat) :
    (parse_susp_rock_ridge C makedev dir buffer).2.slink_rrip =
      if rd8 buffer 0 = 83 ∧ rd8 buffer 1 = 76 ∧ rd8 buffer 2 > 5 ∧ rd8 buffer 3 ≥ 1 then
        sl_loop C (buffer.drop 5) ((rd8 buffer 2 : Int) - 5) 0 dir.slink_rrip
      else dir.slink_rrip := by
  simp only [parse_susp_rock_ridge, apply_ite Prod.snd, apply_ite rrii_dir_record.slink_rrip,
    ite_self, parse_susp_rock_ridge_sl]
  by_cases h : rd8 buffer 0 = 83 ∧ rd8 buffer 1 = 76 ∧ rd8 buffer 2 > 5 ∧ rd8 buffer 3 ≥ 1
  · have h1 : ¬ (rd8 buffer 0 = 80 ∧ rd8 buffer 1 = 88 ∧ rd8 buffer 2 ≥ 36 ∧ rd8 buffer 3 ≥ 1) := by omega
    have h2 : ¬ (rd8 buffer 0 = 80 ∧ rd8 buffer 1 = 78 ∧ rd8 buffer 2 ≥ 20 ∧ rd8 buffer 3 ≥ 1) := by omega
    rw [if_neg h1, if_neg h2, if_pos h]
  · rw [if_neg h]
    simp only [ite_self]

theorem parse_file_id_rrip (C : Nat) (makedev : Nat → Nat → Nat) (dir : rrii_dir_record)
    (buffer : List Nat) :
    (parse_susp_rock_ridge C makedev dir buffer).2.file_id_rrip =
      if rd8 buffer 0 = 78 ∧ rd8 buffer 1 = 77 ∧ rd8 buffer 2 > 5 ∧ rd8 buffer 3 ≥ 1 ∧
          strlen dir.file_id_rrip + (rd8 buffer 2 - 5) + 1 < C then
        strlcpy dir.file_id_rrip (strlen dir.file_id_rrip) buffer 5 (rd8 buffer 2 - 5 + 1)
      else dir.file_id_rrip := by
  simp only [parse_susp_rock_ridge, apply_ite Prod.snd, apply_ite rrii_dir_record.file_id_rrip,
    ite_self, parse_susp_rock_ridge_sl]
  by_cases h : rd8 buffer 0 = 78 ∧ rd8 buffer 1 = 77 ∧ rd8 buffer 2 > 5 ∧ rd8 buffer 3 ≥ 1
  · have h1 : ¬ (rd8 buffer 0 = 80 ∧ rd8 buffer 1 = 88 ∧ rd8 buffer 2 ≥ 36 ∧ rd8 buffer 3 ≥ 1) := by omega
    have h2 : ¬ (rd8 buffer 0 = 80 ∧ rd8 buffer 1 = 78 ∧ rd8 buffer 2 ≥ 20 ∧ rd8 buffer 3 ≥ 1) := by omega
    have h3 : ¬ (rd8 buffer 0 = 83 ∧ rd8 buffer 1 = 76 ∧ rd8 buffer 2 > 5 ∧ rd8 buffer 3 ≥ 1) := by omega
    rw [if_neg h1, if_neg h2, if_neg h3, if_pos h]
    by_cases h4 : strlen dir.file_id_rrip + (rd8 buffer 2 - 5) + 1 < C
    · rw [if_pos h4, if_pos ⟨h.1, h.2.1, h.2.2.1, h.2.2.2, h4⟩]
    · rw [if_neg h4, if_neg (fun hh => h4 hh.2.2.2.2)]
  · have hr : ¬ (rd8 buffer 0 = 78 ∧ rd8 buffer 1 = 77 ∧ rd8 buffer 2 > 5 ∧ rd8 buffer 3 ≥ 1 ∧
        strlen dir.file_id_rrip + (rd8 buffer 2 - 5) + 1 < C) :=
      fun hh => h ⟨hh.1, hh.2.1, hh.2.2.1, hh.2.2.2.1⟩
    rw [if_neg hr, if_neg h]
    simp only [ite_self]

/-! ## C1: the buffer invariant -/

theorem parse_keeps_BufInv (C : Nat) (makedev : Nat → Nat → Nat) (dir : rrii_dir_record)
    (buffer tailF tailS : List Nat)
    (hF : BufInv C tailF dir.file_id_rrip) (hS : BufInv C tailS dir.slink_rrip) :
    BufInv C tailF (parse_susp_rock_ridge C makedev dir buffer).2.file_id_rrip ∧
    BufInv C tailS (parse_susp_rock_ridge C makedev dir buffer).2.slink_rrip := by
  rw [parse_file_id_rrip, parse_slink_rrip]
  constructor
  · split_ifs with h
    · obtain ⟨s, hs, hl, he⟩ := hF
      rw [he, strlen_zbuf C s tailF hs hl] at h ⊢
      rw [strlcpy_zbuf C s tailF buffer 5 _ (by omega)]
      refine ⟨_, hs.append (nulFree_take_cstr _ _), ?_, rfl⟩
      have := List.length_take_le (rd8 buffer 2 - 5) (cstr (buffer.drop 5))
      simp only [List.length_append]
      omega
    · exact hF
  · split_ifs with h
    · obtain ⟨s, hs, hl, he⟩ := hS
      obtain ⟨s', a, b, _, d⟩ := sl_loop_zbuf_inv C (buffer.drop 5) ((rd8 buffer 2 : Int) - 5)
        tailS _ 0 s (le_refl _) hs hl
      exact ⟨s', a, b, by rw [he]; exact d⟩
    · exact hS

theorem run_keeps_BufInv (C : Nat) (makedev : Nat → Nat → Nat) (tailF tailS : List Nat)
    (entries : List (List Nat)) : ∀ (dir : rrii_dir_record),
    BufInv C tailF dir.file_id_rrip → BufInv C tailS dir.slink_rrip →
    BufInv C tailF (run C makedev dir entries).file_id_rrip ∧
    BufInv C tailS (run C makedev dir entries).slink_rrip := by
  induction entries with
  | nil => intro dir hF hS; exact ⟨hF, hS⟩
  | cons e es ih =>
    intro dir hF hS
    obtain ⟨a, b⟩ := parse_keeps_BufInv C makedev dir e tailF tailS hF hS
    exact ih _ a b

theorem BufInv_facts (C : Nat) (tail buf : List Nat) (h : BufInv C tail buf) :
    strlen buf < C ∧ buf[strlen buf]? = some 0 ∧ buf.drop C = tail := by
  obtain ⟨s, hs, hl, rfl⟩ := h
  rw [strlen_zbuf C s tail hs hl]
  refine ⟨hl, ?_, ?_⟩
  · rw [zbuf_split C s tail 1 (by omega)]
    rw [List.append_assoc, List.getElem?_append_right (le_refl _)]
    simp
  · unfold zbuf
    have : (s ++ List.replicate (C - s.length) 0).length = C := by simp; omega
    rw [List.drop_append_of_le_length (by omega)]
    rw [List.drop_of_length_le (by omega)]
    simp

theorem BufInv_zero (C : Nat) (tail : List Nat) (hC : 0 < C) :
    BufInv C tail (List.replicate C 0 ++ tail) :=
  ⟨[], by intro b hb; simp at hb, by simpa using hC, by simp [zbuf]⟩

/-- C1: from a record whose two text buffers are zero-filled over their capacity `C`,
after any finite sequence of `parse_susp_rock_ridge` calls on arbitrary entries each
buffer has its first NUL at an index below `C` (its text is shorter than `C`) and the
bytes that follow the buffer in memory are untouched. -/
theorem C1_buffer_invariant (C : Nat) (makedev : Nat → Nat → Nat) (dir : rrii_dir_record)
    (tailF tailS : List Nat) (entries : List (List Nat)) (hC : 0 < C)
    (hF : dir.file_id_rrip = List.replicate C 0 ++ tailF)
    (hS : dir.slink_rrip = List.replicate C 0 ++ tailS) :
    (strlen (run C makedev dir entries).file_id_rrip < C ∧
      (run C makedev dir entries).file_id_rrip[
        strlen (run C makedev dir entries).file_id_rrip]? = some 0 ∧
      (run C makedev dir entries).file_id_rrip.drop C = tailF) ∧
    (strlen (run C makedev dir entries).slink_rrip < C ∧
      (run C makedev dir entries).slink_rrip[
        strlen (run C makedev dir entries).slink_rrip]? = some 0 ∧
      (run C makedev dir entries).slink_rrip.drop C = tailS) := by
  obtain ⟨a, b⟩ := run_keeps_BufInv C makedev tailF tailS entries dir
    (hF ▸ BufInv_zero C tailF hC) (hS ▸ BufInv_zero C tailS hC)
  exact ⟨BufInv_facts C tailF _ a, BufInv_facts C tailS _ b⟩

/-- C1 at capacity 256, on the sample record with empty buffers and the sample entries. -/
theorem C1_buffer_invariant_witness :
    (strlen (run 256 makedev_sample (sample_dir 256 [] []) sample_entries).file_id_rrip < 256 ∧
      (run 256 makedev_sample (sample_dir 256 [] []) sample_entries).file_id_rrip[
        strlen (run 256 makedev_sample (sample_dir 256 [] []) sample_entries).file_id_rrip]?
          = some 0 ∧
      (run 256 makedev_sample (sample_dir 256 [] []) sample_entries).file_id_rrip.drop 256
        = []) ∧
    (strlen (run 256 makedev_sample (sample_dir 256 [] []) sample_entries).slink_rrip < 256 ∧
      (run 256 makedev_sample (sample_dir 256 [] []) sample_entries).slink_rrip[
        strlen (run 256 makedev_sample (sample_dir 256 [] []) sample_entries).slink_rrip]?
          = some 0 ∧
      (run 256 makedev_sample (sample_dir 256 [] []) sample_entries).slink_rrip.drop 256
        = []) :=
  C1_buffer_invariant 256 makedev_sample (sample_dir 256 [] []) [] [] sample_entries
    (by decide) rfl rfl

/-! ## C2 and C3: status and rejection -/

/-- C2: `parse_susp_rock_ridge` returns `OK` exactly on the accepted entries (CL, PL, RE,
SF with any length and version; PX with length >= 36, PN with length >= 20, SL or NM with
length > 5, TF with length >= 5, each with version >= 1) and `EINVAL` on every other
entry, among them every entry with signature "ZZ". -/
theorem C2_status_characterisation (C : Nat) (makedev : Nat → Nat → Nat)
    (dir : rrii_dir_record) (buffer : List Nat) :
    ((parse_susp_rock_ridge C makedev dir buffer).1 = Status.OK ↔ accepted buffer) ∧
    (¬ accepted buffer → (parse_susp_rock_ridge C makedev dir buffer).1 = Status.EINVAL) ∧
    (rd8 buffer 0 = 90 ∧ rd8 buffer 1 = 90 →
      (parse_susp_rock_ridge C makedev dir buffer).1 = Status.EINVAL) := by
  rcases parse_accepted_or_not C makedev dir buffer with ⟨h, e⟩ | ⟨h, e⟩
  · refine ⟨⟨fun _ => h, fun _ => e⟩, fun hn => absurd h hn, fun hz => ?_⟩
    unfold accepted at h
    omega
  · refine ⟨⟨fun ho => ?_, fun ha => absurd ha h⟩, fun _ => by rw [e], fun _ => by rw [e]⟩
    rw [e] at ho
    cases ho

/-- C2 at an entry of the unknown tag "ZZ" with length 36 and version 1. -/
theorem C2_status_characterisation_witness :
    (parse_susp_rock_ridge 256 makedev_sample (sample_dir 256 [] [])
      [90, 90, 36, 1]).1 = Status.EINVAL :=
  (C2_status_characterisation 256 makedev_sample (sample_dir 256 [] [])
    [90, 90, 36, 1]).2.2 ⟨rfl, rfl⟩

/-- C3: an entry on which `parse_susp_rock_ridge` returns `EINVAL` leaves the record
equal to the record before the call; a PX entry of length 35, a PN entry of length 19, an
SL or NM entry of length 5, a TF entry of length 4, and a PX, PN, SL, NM or TF entry of
version 0 each return `EINVAL` with the record unchanged. -/
theorem C3_rejection_is_atomic (C : Nat) (makedev : Nat → Nat → Nat)
    (dir : rrii_dir_record) (buffer : List Nat) :
    ((parse_susp_rock_ridge C makedev dir buffer).1 = Status.EINVAL →
      (parse_susp_rock_ridge C makedev dir buffer).2 = dir) ∧
    (((rd8 buffer 0 = 80 ∧ rd8 buffer 1 = 88 ∧ rd8 buffer 2 = 35) ∨
      (rd8 buffer 0 = 80 ∧ rd8 buffer 1 = 78 ∧ rd8 buffer 2 = 19) ∨
      (rd8 buffer 0 = 83 ∧ rd8 buffer 1 = 76 ∧ rd8 buffer 2 = 5) ∨
      (rd8 buffer 0 = 78 ∧ rd8 buffer 1 = 77 ∧ rd8 buffer 2 = 5) ∨
      (rd8 buffer 0 = 84 ∧ rd8 buffer 1 = 70 ∧ rd8 buffer 2 = 4) ∨
      (((rd8 buffer 0 = 80 ∧ rd8 buffer 1 = 88) ∨ (rd8 buffer 0 = 80 ∧ rd8 buffer 1 = 78) ∨
        (rd8 buffer 0 = 83 ∧ rd8 buffer 1 = 76) ∨ (rd8 buffer 0 = 78 ∧ rd8 buffer 1 = 77) ∨
        (rd8 buffer 0 = 84 ∧ rd8 buffer 1 = 70)) ∧ rd8 buffer 3 = 0)) →
      parse_susp_rock_ridge C makedev dir buffer = (Status.EINVAL, dir)) := by
  rcases parse_accepted_or_not C makedev dir buffer with ⟨h, e⟩ | ⟨h, e⟩
  · refine ⟨fun hi => ?_, fun hg => ?_⟩
    · rw [e] at hi; cases hi
    · unfold accepted at h
      omega
  · exact ⟨fun _ => by rw [e], fun _ => e⟩

/-- C3 at a PX entry of length 35 and version 1. -/
theorem C3_rejection_is_atomic_witness :
    parse_susp_rock_ridge 256 makedev_sample (sample_dir 256 [] [])
      (80 :: 88 :: 35 :: 1 :: List.replicate 31 0)
      = (Status.EINVAL, sample_dir 256 [] []) :=
  (C3_rejection_is_atomic 256 makedev_sample (sample_dir 256 [] [])
    (80 :: 88 :: 35 :: 1 :: List.replicate 31 0)).2 (Or.inl ⟨rfl, rfl, rfl⟩)

/-! ## C4: reference semantics of the SL parser -/

theorem length_le_sl_step (s : List Nat) (c : Nat × List Nat) :
    s.length ≤ (sl_step s c).length := by
  unfold sl_step
  split_ifs <;> simp only [List.length_append] <;> omega

theorem length_le_sl_fold (comps : List (Nat × List Nat)) :
    ∀ s : List Nat, s.length ≤ (sl_fold s comps).length := by
  induction comps with
  | nil => intro s; exact le_refl _
  | cons c cs ih =>
    intro s
    exact (length_le_sl_step s c).trans (ih (sl_step s c))

theorem nulFree_sl_text (flags : Nat) (bytes : List Nat) (hb : NulFree bytes) :
    NulFree (sl_text flags bytes) := by
  unfold sl_text
  split_ifs
  · intro b hb; simp at hb; omega
  · intro b hb; simp at hb; omega
  · intro b hb; simp at hb; omega
  · exact hb

theorem nulFree_sl_fold (comps : List (Nat × List Nat)) :
    ∀ s : List Nat, NulFree s → (∀ c ∈ comps, NulFree c.2) → NulFree (sl_fold s comps) := by
  induction comps with
  | nil => intro s hs _; exact hs
  | cons c cs ih =>
    intro s hs hc
    refine ih (sl_step s c) ?_ (fun x hx => hc x (List.mem_cons_of_mem _ hx))
    unfold sl_step
    have ht := nulFree_sl_text c.1 c.2 (hc c (List.mem_cons_self _ _))
    split_ifs
    · exact hs.append ht
    · exact (hs.append (by intro b hb; simp at hb; omega)).append ht

/-- The switch on a component that is valid and fits appends its text. -/
theorem sl_switch_txt_ok (C : Nat) (buffer : List Nat) (length : Int) (offset : Nat)
    (flags : Nat) (bytes s : List Nat)
    (hf : flags &&& 0xF = 0 ∨ flags &&& 0xF = 1 ∨ flags &&& 0xF = 2 ∨ flags &&& 0xF = 4 ∨
      flags &&& 0xF = 8)
    (hsrc : (cstr (buffer.drop (offset + 2))).take bytes.length = bytes)
    (hlen : (bytes.length : Int) ≤ length - offset)
    (hfit : (s ++ sl_text flags bytes).length + 2 ≤ C) :
    sl_switch_txt C buffer length offset flags bytes.length s
      = (s ++ sl_text flags bytes, true) := by
  unfold sl_switch_txt
  rcases hf with h | h | h | h | h
  · have ht : sl_text flags bytes = bytes := by
      unfold sl_text; rw [if_neg (by omega), if_neg (by omega), if_neg (by omega)]
    rw [ht] at hfit ⊢
    simp only [List.length_append] at hfit
    rw [if_pos (Or.inl h), if_neg (by omega), hsrc]
  · have ht : sl_text flags bytes = bytes := by
      unfold sl_text; rw [if_neg (by omega), if_neg (by omega), if_neg (by omega)]
    rw [ht] at hfit ⊢
    simp only [List.length_append] at hfit
    rw [if_pos (Or.inr h), if_neg (by omega), hsrc]
  · have ht : sl_text flags bytes = [46] := by
      unfold sl_text; rw [if_pos h]
    rw [ht] at hfit ⊢
    simp only [List.length_append, List.length_singleton] at hfit
    rw [if_neg (by omega), if_pos h, if_neg (by omega)]
  · have ht : sl_text flags bytes = [46, 46] := by
      unfold sl_text; rw [if_neg (by omega), if_pos h]
    rw [ht] at hfit ⊢
    simp only [List.length_append, List.length_cons, List.length_nil] at hfit
    rw [if_neg (by omega), if_neg (by omega), if_pos h, if_neg (by omega)]
  · have ht : sl_text flags bytes = [47] := by
      unfold sl_text; rw [if_neg (by omega), if_neg (by omega), if_pos h]
    rw [ht] at hfit ⊢
    simp only [List.length_append, List.length_singleton] at hfit
    rw [if_neg (by omega), if_neg (by omega), if_neg (by omega), if_pos h, if_neg (by omega)]

/-- One iteration on a component that is valid and fits is one step of the fold. -/
theorem sl_iter_txt_ok (C : Nat) (buffer : List Nat) (length : Int) (offset : Nat)
    (c : Nat × List Nat) (s : List Nat)
    (hf : c.1 &&& 0xF = 0 ∨ c.1 &&& 0xF = 1 ∨ c.1 &&& 0xF = 2 ∨ c.1 &&& 0xF = 4 ∨
      c.1 &&& 0xF = 8)
    (h0 : rd8 buffer offset = c.1) (h1 : rd8 buffer (offset + 1) = c.2.length)
    (hsrc : (cstr (buffer.drop (offset + 2))).take c.2.length = c.2)
    (hlen : (c.2.length : Int) ≤ length - offset)
    (hfit : (sl_step s c).length + 2 ≤ C) :
    sl_iter_txt C buffer length offset s = (sl_step s c, true) := by
  unfold sl_iter_txt
  unfold sl_step at hfit ⊢
  rw [h0, h1]
  by_cases hs : s = []
  · rw [if_neg (by simpa using hs)]
    rw [if_pos hs] at hfit ⊢
    exact sl_switch_txt_ok C buffer length offset c.1 c.2 s hf hsrc hlen hfit
  · rw [if_pos hs]
    rw [if_neg hs] at hfit ⊢
    rw [if_neg (by simp only [List.length_append, List.length_singleton] at hfit; omega)]
    exact sl_switch_txt_ok C buffer length offset c.1 c.2 (s ++ [47]) hf hsrc hlen hfit

theorem sl_payload_length_cons (c : Nat × List Nat) (cs : List (Nat × List Nat)) :
    (sl_payload (c :: cs)).length = c.2.length + 2 + (sl_payload cs).length := by
  simp only [sl_payload, List.length_cons, List.length_append]; omega

/-- The loop on a payload made of valid components that fit computes the fold. -/
theorem sl_loop_components (C : Nat) (tail rest : List Nat) :
    ∀ (comps : List (Nat × List Nat)) (pre s : List Nat), NulFree s →
      (∀ c ∈ comps, (c.1 &&& 0xF = 0 ∨ c.1 &&& 0xF = 1 ∨ c.1 &&& 0xF = 2 ∨ c.1 &&& 0xF = 4 ∨
        c.1 &&& 0xF = 8) ∧ NulFree c.2) →
      (sl_fold s comps).length + 2 ≤ C →
      sl_loop C (pre ++ sl_payload comps ++ rest)
          ((pre.length : Int) + (sl_payload comps).length) pre.length (zbuf C s tail)
        = zbuf C (sl_fold s comps) tail := by
  intro comps
  induction comps with
  | nil =>
    intro pre s _ _ _
    rw [sl_loop, if_neg (by simp [sl_payload])]
    rfl
  | cons c cs ih =>
    intro pre s hs hc hfit
    have hstep : (sl_step s c).length + 2 ≤ C :=
      le_trans (Nat.add_le_add_right (length_le_sl_fold cs (sl_step s c)) 2) hfit
    have hsl : s.length < C := by
      have := length_le_sl_step s c
      omega
    obtain ⟨hf, hb⟩ := hc c (List.mem_cons_self _ _)
    have hbuf : pre ++ sl_payload (c :: cs) ++ rest
        = (pre ++ [c.1, c.2.length]) ++ (c.2 ++ (sl_payload cs ++ rest)) := by
      simp [sl_payload]
    have hit : sl_iter_txt C (pre ++ sl_payload (c :: cs) ++ rest)
        ((pre.length : Int) + (sl_payload (c :: cs)).length) pre.length s
        = (sl_step s c, true) := by
      apply sl_iter_txt_ok C _ _ _ c s hf
      · rw [List.append_assoc]
        exact rd8_append pre _ 0
      · rw [List.append_assoc]
        exact rd8_append pre _ 1
      · rw [hbuf]
        have : pre.length + 2 = (pre ++ [c.1, c.2.length]).length := by simp
        rw [this, List.drop_left]
        exact take_cstr_append c.2 _ hb
      · rw [sl_payload_length_cons]; push_cast; omega
      · exact hstep
    rw [sl_loop, if_pos (by rw [sl_payload_length_cons]; push_cast; omega),
      sl_iter_zbuf C _ _ _ s tail hs hsl, hit]
    simp only [if_true]
    have hr : rd8 (pre ++ sl_payload (c :: cs) ++ rest) (pre.length + 1) = c.2.length := by
      rw [List.append_assoc]
      exact rd8_append pre _ 1
    rw [hr]
    have hs' : NulFree (sl_step s c) := by
      have := (sl_iter_txt_inv C (pre ++ sl_payload (c :: cs) ++ rest)
        ((pre.length : Int) + (sl_payload (c :: cs)).length) pre.length s hs hsl).1
      rwa [hit] at this
    have := ih (pre ++ c.1 :: c.2.length :: c.2) (sl_step s c) hs'
      (fun x hx => hc x (List.mem_cons_of_mem _ hx)) hfit
    have e1 : pre ++ sl_payload (c :: cs) ++ rest
        = pre ++ c.1 :: c.2.length :: c.2 ++ sl_payload cs ++ rest := by
      simp [sl_payload]
    have e2 : pre.length + (c.2.length + 2) = (pre ++ c.1 :: c.2.length :: c.2).length := by
      simp only [List.length_append, List.length_cons]
    have e3 : (pre.length : Int) + (sl_payload (c :: cs)).length
        = ((pre ++ c.1 :: c.2.length :: c.2).length : Int) + (sl_payload cs).length := by
      rw [sl_payload_length_cons]; simp; omega
    rw [e1, e2, e3]
    exact this

/-- C4: on a link buffer that holds the text `s`, zero-filled after it, and an SL
payload that is the concatenation of the sub-records of components with flag value in
0, 1, 2, 4, 8 and NUL-free bytes, `parse_susp_rock_ridge_sl` leaves the buffer holding
the folded text `sl_fold s comps` (zero-filled after it), when that text has length at
most `C - 2`. -/
theorem C4_sl_reference_semantics (C : Nat) (dir : rrii_dir_record)
    (s tail rest : List Nat) (comps : List (Nat × List Nat))
    (hbuf : dir.slink_rrip = zbuf C s tail) (hs : NulFree s)
    (hcomps : ∀ c ∈ comps, (c.1 &&& 0xF = 0 ∨ c.1 &&& 0xF = 1 ∨ c.1 &&& 0xF = 2 ∨
      c.1 &&& 0xF = 4 ∨ c.1 &&& 0xF = 8) ∧ NulFree c.2)
    (hfit : (sl_fold s comps).length + 2 ≤ C) :
    (parse_susp_rock_ridge_sl C dir (sl_payload comps ++ rest)
        (sl_payload comps).length).slink_rrip = zbuf C (sl_fold s comps) tail ∧
    cstr (parse_susp_rock_ridge_sl C dir (sl_payload comps ++ rest)
        (sl_payload comps).length).slink_rrip = sl_fold s comps := by
  have h := sl_loop_components C tail rest comps [] s hs hcomps hfit
  simp only [List.nil_append, List.length_nil, Nat.cast_zero, zero_add] at h
  have e : (parse_susp_rock_ridge_sl C dir (sl_payload comps ++ rest)
      (sl_payload comps).length).slink_rrip = zbuf C (sl_fold s comps) tail := by
    simp only [parse_susp_rock_ridge_sl, hbuf]
    exact h
  refine ⟨e, ?_⟩
  rw [e]
  exact cstr_zbuf C _ tail (nulFree_sl_fold comps s hs (fun c hc => (hcomps c hc).2))
    (by omega)

/-- C4 at the example of the spec: "abc" on an empty link buffer, then "def". -/
theorem C4_sl_reference_semantics_witness :
    cstr (parse_susp_rock_ridge_sl 256 (sample_dir 256 [] []) [0, 3, 97, 98, 99] 5).slink_rrip
      = [97, 98, 99] ∧
    cstr (parse_susp_rock_ridge_sl 256 (sample_dir 256 [] [97, 98, 99])
      [0, 3, 100, 101, 102] 5).slink_rrip = [97, 98, 99, 47, 100, 101, 102] :=
  ⟨(C4_sl_reference_semantics 256 (sample_dir 256 [] []) [] [] [] [(0, [97, 98, 99])] rfl
      (by decide) (by decide) (by decide)).2,
   (C4_sl_reference_semantics 256 (sample_dir 256 [] [97, 98, 99]) [97, 98, 99] [] []
      [(0, [100, 101, 102])] rfl (by decide) (by decide) (by decide)).2⟩

/-! ## C5: an aborted SL component -/

/-- The first iteration on a non-empty text with room for the separator, when the
component is rejected by the switch: the separator stays in the text. -/
theorem sl_iter_txt_abort (C : Nat) (buffer : List Nat) (length : Int) (s : List Nat)
    (hne : s ≠ []) (hroom : s.length + 2 < C)
    (habort : ((rd8 buffer 0 &&& 0xF = 0 ∨ rd8 buffer 0 &&& 0xF = 1) ∧
        ((rd8 buffer 1 : Int) > length ∨ s.length + 1 + rd8 buffer 1 + 1 ≥ C)) ∨
      ¬ (rd8 buffer 0 &&& 0xF = 0 ∨ rd8 buffer 0 &&& 0xF = 1 ∨ rd8 buffer 0 &&& 0xF = 2 ∨
        rd8 buffer 0 &&& 0xF = 4 ∨ rd8 buffer 0 &&& 0xF = 8)) :
    sl_iter_txt C buffer length 0 s = (s ++ [47], false) := by
  unfold sl_iter_txt
  rw [if_pos hne, if_neg (by omega)]
  unfold sl_switch_txt
  rcases habort with ⟨hf, hb⟩ | hf
  · rw [if_pos hf, if_pos]
    simp only [List.length_append, List.length_singleton, Nat.cast_zero, sub_zero,
      Nat.zero_add]
    omega
  · rw [if_neg (by omega), if_neg (by omega), if_neg (by omega), if_neg (by omega)]

/-- C5 (what the code does): when the link buffer holds a non-empty text `s` with
`|s| + 2 < C` and the first component of an SL payload is rejected (an ordinary
component longer than the payload or too long for the buffer, or a flag value outside
0, 1, 2, 4, 8), `parse_susp_rock_ridge_sl` leaves the text `s` followed by "/": the
separator written before the component was examined is not taken back. -/
theorem C5_sl_abort_leaves_separator (C : Nat) (dir : rrii_dir_record)
    (s tail buffer : List Nat) (length : Int)
    (hbuf : dir.slink_rrip = zbuf C s tail) (hs : NulFree s)
    (hne : s ≠ []) (hroom : s.length + 2 < C) (hlen : 2 ≤ length)
    (habort : ((rd8 buffer 0 &&& 0xF = 0 ∨ rd8 buffer 0 &&& 0xF = 1) ∧
        ((rd8 buffer 1 : Int) > length ∨ s.length + 1 + rd8 buffer 1 + 1 ≥ C)) ∨
      ¬ (rd8 buffer 0 &&& 0xF = 0 ∨ rd8 buffer 0 &&& 0xF = 1 ∨ rd8 buffer 0 &&& 0xF = 2 ∨
        rd8 buffer 0 &&& 0xF = 4 ∨ rd8 buffer 0 &&& 0xF = 8)) :
    (parse_susp_rock_ridge_sl C dir buffer length).slink_rrip = zbuf C (s ++ [47]) tail ∧
    cstr (parse_susp_rock_ridge_sl C dir buffer length).slink_rrip = s ++ [47] := by
  have e : (parse_susp_rock_ridge_sl C dir buffer length).slink_rrip
      = zbuf C (s ++ [47]) tail := by
    simp only [parse_susp_rock_ridge_sl, hbuf]
    rw [sl_loop, if_pos (by simpa using hlen),
      sl_iter_zbuf C buffer length 0 s tail hs (by omega),
      sl_iter_txt_abort C buffer length s hne hroom habort]
    simp
  refine ⟨e, ?_⟩
  rw [e]
  exact cstr_zbuf C _ tail (hs.append (by decide))
    (by simp only [List.length_append, List.length_singleton]; omega)

/-- C5 at a failing input: the link text is "a" and the SL entry (length 7, version 1)
carries one component of flag value 3; the call returns `OK` and the text is "a/". -/
theorem C5_sl_abort_leaves_separator_witness :
    (parse_susp_rock_ridge 256 makedev_sample (sample_dir 256 [] [97])
      [83, 76, 7, 1, 0, 3, 0]).1 = Status.OK ∧
    cstr (parse_susp_rock_ridge 256 makedev_sample (sample_dir 256 [] [97])
      [83, 76, 7, 1, 0, 3, 0]).2.slink_rrip = [97, 47] := by
  rw [parse_SL 256 makedev_sample (sample_dir 256 [] [97]) [83, 76, 7, 1, 0, 3, 0]
    (by decide)]
  exact ⟨rfl, (C5_sl_abort_leaves_separator 256 (sample_dir 256 [] [97]) [97] []
    [3, 0] 2 rfl (by decide) (by decide) (by decide) (by decide) (Or.inr (by decide))).2⟩

/-! ## C6: the special SL components -/

/-- The loop on the three special components ".", "..", "/" from an empty text. -/
theorem sl_loop_special (C : Nat) (tail rest : List Nat) (hC : 8 ≤ C) :
    sl_loop C ([2, 0, 4, 0, 8, 0] ++ rest) 6 0 (zbuf C [] tail)
      = zbuf C [46, 47, 46, 46, 47, 47] tail := by
  have h := sl_loop_components C tail rest [(2, []), (4, []), (8, [])] [] []
    (by decide) (by decide) (by simpa [sl_fold, sl_step, sl_text] using hC)
  simpa [sl_payload, sl_fold, sl_step, sl_text] using h

/-- C6 (amended): on an empty, zero-filled link buffer of capacity at least 8, the SL
payload with the components {flags=2,len=0}, {flags=4,len=0}, {flags=8,len=0} leaves the
text "./..//": the separator is written before the root component as before any other. -/
theorem C6_sl_special_components (C : Nat) (dir : rrii_dir_record) (tail rest : List Nat)
    (hC : 8 ≤ C) (hbuf : dir.slink_rrip = zbuf C [] tail) :
    (parse_susp_rock_ridge_sl C dir ([2, 0, 4, 0, 8, 0] ++ rest) 6).slink_rrip
      = zbuf C [46, 47, 46, 46, 47, 47] tail ∧
    cstr (parse_susp_rock_ridge_sl C dir ([2, 0, 4, 0, 8, 0] ++ rest) 6).slink_rrip
      = [46, 47, 46, 46, 47, 47] := by
  have e : (parse_susp_rock_ridge_sl C dir ([2, 0, 4, 0, 8, 0] ++ rest) 6).slink_rrip
      = zbuf C [46, 47, 46, 46, 47, 47] tail := by
    simp only [parse_susp_rock_ridge_sl, hbuf]
    exact sl_loop_special C tail rest hC
  refine ⟨e, ?_⟩
  rw [e]
  exact cstr_zbuf C _ tail (by decide) (by simp only [List.length_cons, List.length_nil]; omega)

/-- C6 (amended) at capacity 256. -/
theorem C6_sl_special_components_witness :
    cstr (parse_susp_rock_ridge_sl 256 (sample_dir 256 [] []) [2, 0, 4, 0, 8, 0] 6).slink_rrip
      = [46, 47, 46, 46, 47, 47] :=
  (C6_sl_special_components 256 (sample_dir 256 [] []) [] [] (by decide) rfl).2

/-- C6 as stated fails: with capacity 256 and an empty link buffer the three special
components do not leave the text "./../". -/
theorem C6_sl_special_components_counterexample :
    cstr (parse_susp_rock_ridge_sl 256 (sample_dir 256 [] []) [2, 0, 4, 0, 8, 0] 6).slink_rrip
      ≠ [46, 47, 46, 46, 47] := by
  have e : (parse_susp_rock_ridge_sl 256 (sample_dir 256 [] []) [2, 0, 4, 0, 8, 0] 6).slink_rrip
      = zbuf 256 [46, 47, 46, 46, 47, 47] [] := by
    simp only [parse_susp_rock_ridge_sl]
    exact sl_loop_special 256 [] [] (by decide)
  rw [e, cstr_zbuf 256 _ [] (by decide) (by decide)]
  decide

/-! ## C7, C8, C9: NM entries -/

/-- An NM entry whose payload fits with the terminator and one spare byte is appended
to the name. -/
theorem parse_NM_appends (C : Nat) (makedev : Nat → Nat → Nat) (dir : rrii_dir_record)
    (buffer : List Nat)
    (hgate : rd8 buffer 0 = 78 ∧ rd8 buffer 1 = 77 ∧ rd8 buffer 2 > 5 ∧ rd8 buffer 3 ≥ 1)
    (hcap : C ≤ dir.file_id_rrip.length)
    (hlen : (nm_payload buffer).length = rd8 buffer 2 - 5)
    (hnul : NulFree (nm_payload buffer))
    (hfit : strlen dir.file_id_rrip + (rd8 buffer 2 - 5) + 1 < C) :
    (parse_susp_rock_ridge C makedev dir buffer).1 = Status.OK ∧
    cstr (parse_susp_rock_ridge C makedev dir buffer).2.file_id_rrip
      = cstr dir.file_id_rrip ++ nm_payload buffer ∧
    (parse_susp_rock_ridge C makedev dir buffer).2.file_id_rrip.length
      = dir.file_id_rrip.length := by
  rw [parse_NM C makedev dir buffer hgate, if_pos hfit]
  have hsrc : (cstr (buffer.drop 5)).take (rd8 buffer 2 - 5) = nm_payload buffer := by
    have := take_cstr_append (nm_payload buffer) ((buffer.drop 5).drop (rd8 buffer 2 - 5)) hnul
    rw [hlen] at this
    unfold nm_payload at this ⊢
    rwa [List.take_append_drop] at this
  simp only [strlcpy, Nat.add_one_ne_zero, if_false, Nat.add_sub_cancel, hsrc]
  refine ⟨trivial, cstr_writeBytes_end _ _ hnul (by omega), writeBytes_length _ _ _⟩

/-- The payload of an entry with a 5-byte header whose length byte is 5 plus the
number of bytes `p` that follow the header. -/
theorem nm_payload_header (a b d e : Nat) (p rest : List Nat) :
    nm_payload (a :: b :: (5 + p.length) :: d :: e :: (p ++ rest)) = p := by
  simp [nm_payload, rd8]

/-- C7 (amended): for an NM entry that passes its gate, whose payload `p` (bytes 5 to
total_length - 1) is NUL-free, on a record whose name buffer holds a text of length `cur`,
if `cur + n + 1 < C` with `n = total_length - 5` then the call returns `OK` and the name
buffer holds the old text followed by `p`. -/
theorem C7_nm_append (C : Nat) (makedev : Nat → Nat → Nat) (dir : rrii_dir_record)
    (buffer : List Nat)
    (hgate : rd8 buffer 0 = 78 ∧ rd8 buffer 1 = 77 ∧ rd8 buffer 2 > 5 ∧ rd8 buffer 3 ≥ 1)
    (hcap : C ≤ dir.file_id_rrip.length)
    (hlen : (nm_payload buffer).length = rd8 buffer 2 - 5)
    (hnul : NulFree (nm_payload buffer))
    (hfit : strlen dir.file_id_rrip + (rd8 buffer 2 - 5) + 1 < C) :
    (parse_susp_rock_ridge C makedev dir buffer).1 = Status.OK ∧
    cstr (parse_susp_rock_ridge C makedev dir buffer).2.file_id_rrip
      = cstr dir.file_id_rrip ++ nm_payload buffer := by
  obtain ⟨a, b, _⟩ := parse_NM_appends C makedev dir buffer hgate hcap hlen hnul hfit
  exact ⟨a, b⟩

/-- C7 (amended) at capacity 256: "beta" after "alpha". -/
theorem C7_nm_append_witness :
    cstr (parse_susp_rock_ridge 256 makedev_sample (sample_dir 256 [97, 108, 112, 104, 97] [])
      [78, 77, 9, 1, 0, 98, 101, 116, 97]).2.file_id_rrip
      = [97, 108, 112, 104, 97, 98, 101, 116, 97] :=
  (C7_nm_append 256 makedev_sample (sample_dir 256 [97, 108, 112, 104, 97] [])
    [78, 77, 9, 1, 0, 98, 101, 116, 97] (by decide)
    (by rw [show (sample_dir 256 [97, 108, 112, 104, 97] []).file_id_rrip
      = zbuf 256 [97, 108, 112, 104, 97] [] from rfl, length_zbuf _ _ _ (by decide)]; decide)
    (by decide) (by decide) (by decide)).2

/-- C7 as stated fails at the boundary `cur + n = C - 1`: with capacity 256, a name of
5 bytes and an NM entry of total length 255 (payload of 250 bytes), `cur + n = 255 < 256`
and yet the name is not extended. -/
theorem C7_nm_append_counterexample :
    rd8 (78 :: 77 :: 255 :: 1 :: 0 :: List.replicate 250 98) 2 > 5 ∧
    NulFree (nm_payload (78 :: 77 :: 255 :: 1 :: 0 :: List.replicate 250 98)) ∧
    strlen (sample_dir 256 [97, 97, 97, 97, 97] []).file_id_rrip
      + (rd8 (78 :: 77 :: 255 :: 1 :: 0 :: List.replicate 250 98) 2 - 5) < 256 ∧
    cstr (parse_susp_rock_ridge 256 makedev_sample (sample_dir 256 [97, 97, 97, 97, 97] [])
        (78 :: 77 :: 255 :: 1 :: 0 :: List.replicate 250 98)).2.file_id_rrip
      ≠ cstr (sample_dir 256 [97, 97, 97, 97, 97] []).file_id_rrip
        ++ nm_payload (78 :: 77 :: 255 :: 1 :: 0 :: List.replicate 250 98) := by
  have hs : strlen (sample_dir 256 [97, 97, 97, 97, 97] []).file_id_rrip = 5 :=
    strlen_zbuf 256 _ [] (by decide) (by decide)
  have hp : nm_payload (78 :: 77 :: 255 :: 1 :: 0 :: List.replicate 250 98)
      = List.replicate 250 98 := by
    have := nm_payload_header 78 77 1 0 (List.replicate 250 98) []
    rwa [List.length_replicate, List.append_nil] at this
  have hr : rd8 (78 :: 77 :: 255 :: 1 :: 0 :: List.replicate 250 98) 2 = 255 := rfl
  refine ⟨by rw [hr]; decide, ?_, by rw [hs, hr]; decide, ?_⟩
  · rw [hp]
    intro b hb
    rw [List.eq_of_mem_replicate hb]
    decide
  · rw [parse_NM 256 makedev_sample (sample_dir 256 [97, 97, 97, 97, 97] [])
        (78 :: 77 :: 255 :: 1 :: 0 :: List.replicate 250 98)
        ⟨rfl, rfl, by rw [hr]; decide, by decide⟩,
      if_neg (by rw [hs, hr]; decide)]
    intro h
    rw [hp] at h
    have h2 : (cstr (sample_dir 256 [97, 97, 97, 97, 97] []).file_id_rrip).length
        = (cstr (sample_dir 256 [97, 97, 97, 97, 97] []).file_id_rrip).length + 250 := by
      conv_lhs => rw [h]
      rw [List.length_append, List.length_replicate]
    omega

/-- A sequence of NM entries that fit is accumulated in the name buffer. -/
theorem run_nm_accumulates (C : Nat) (makedev : Nat → Nat → Nat) :
    ∀ (entries : List (List Nat)) (dir : rrii_dir_record),
      C ≤ dir.file_id_rrip.length →
      (∀ e ∈ entries, (rd8 e 0 = 78 ∧ rd8 e 1 = 77 ∧ rd8 e 2 > 5 ∧ rd8 e 3 ≥ 1) ∧
        (nm_payload e).length = rd8 e 2 - 5 ∧ NulFree (nm_payload e)) →
      strlen dir.file_id_rrip + (nm_payloads entries).length + 1 < C →
      cstr (run C makedev dir entries).file_id_rrip
        = cstr dir.file_id_rrip ++ nm_payloads entries := by
  intro entries
  induction entries with
  | nil => intro dir _ _ _; simp [run, nm_payloads]
  | cons e es ih =>
    intro dir hcap hes hfit
    obtain ⟨hg, hl, hn⟩ := hes e (List.mem_cons_self _ _)
    simp only [nm_payloads, List.length_append] at hfit
    obtain ⟨_, b, c⟩ := parse_NM_appends C makedev dir e hg hcap hl hn (by omega)
    have := ih (parse_susp_rock_ridge C makedev dir e).2 (by omega)
      (fun x hx => hes x (List.mem_cons_of_mem _ hx))
      (by rw [← length_cstr, b, List.length_append, length_cstr]; omega)
    rw [b, List.append_assoc] at this
    exact this

/-- C8: NM entries that pass the gate, with NUL-free payloads `p1 .. pk`, applied in
order to a record whose name buffer is empty and zero-filled, leave the concatenation
`p1 ++ ... ++ pk` in the name buffer when `|p1| + ... + |pk| + 1 < C`. -/
theorem C8_nm_accumulation (C : Nat) (makedev : Nat → Nat → Nat) (dir : rrii_dir_record)
    (tail : List Nat) (entries : List (List Nat))
    (hbuf : dir.file_id_rrip = List.replicate C 0 ++ tail)
    (hentries : ∀ e ∈ entries, (rd8 e 0 = 78 ∧ rd8 e 1 = 77 ∧ rd8 e 2 > 5 ∧ rd8 e 3 ≥ 1) ∧
      (nm_payload e).length = rd8 e 2 - 5 ∧ NulFree (nm_payload e))
    (hfit : (nm_payloads entries).length + 1 < C) :
    cstr (run C makedev dir entries).file_id_rrip = nm_payloads entries := by
  have hz : dir.file_id_rrip = zbuf C [] tail := by rw [hbuf]; simp [zbuf]
  have hs : strlen dir.file_id_rrip = 0 := by
    rw [hz]; exact strlen_zbuf C [] tail (by decide) (by simp only [List.length_nil]; omega)
  have hc : cstr dir.file_id_rrip = [] := by
    rw [hz]; exact cstr_zbuf C [] tail (by decide) (by simp only [List.length_nil]; omega)
  have := run_nm_accumulates C makedev entries dir
    (by rw [hz, length_zbuf C [] tail (Nat.zero_le _)]; omega) hentries (by rw [hs]; omega)
  rw [hc, List.nil_append] at this
  exact this

/-- C8 at the example of the spec, capacity 256: "alpha" then "beta" give "alphabeta". -/
theorem C8_nm_accumulation_witness :
    cstr (run 256 makedev_sample (sample_dir 256 [] [])
      [[78, 77, 10, 1, 0, 97, 108, 112, 104, 97], [78, 77, 9, 1, 0, 98, 101, 116, 97]]).file_id_rrip
      = [97, 108, 112, 104, 97, 98, 101, 116, 97] :=
  C8_nm_accumulation 256 makedev_sample (sample_dir 256 [] []) []
    [[78, 77, 10, 1, 0, 97, 108, 112, 104, 97], [78, 77, 9, 1, 0, 98, 101, 116, 97]]
    rfl (by decide) (by decide)

/-- C9: for an NM entry that passes its gate, on a record whose name buffer holds a text
of length `cur`, if `cur + n >= C` with `n = total_length - 5` then the call returns `OK`
and the record is unchanged. -/
theorem C9_nm_overflow_dropped (C : Nat) (makedev : Nat → Nat → Nat) (dir : rrii_dir_record)
    (buffer : List Nat)
    (hgate : rd8 buffer 0 = 78 ∧ rd8 buffer 1 = 77 ∧ rd8 buffer 2 > 5 ∧ rd8 buffer 3 ≥ 1)
    (hover : strlen dir.file_id_rrip + (rd8 buffer 2 - 5) ≥ C) :
    parse_susp_rock_ridge C makedev dir buffer = (Status.OK, dir) := by
  rw [parse_NM C makedev dir buffer hgate, if_neg (by omega)]

/-- C9 at capacity 16: the name "alphabeta" and an NM entry with a payload of 7 bytes. -/
theorem C9_nm_overflow_dropped_witness :
    parse_susp_rock_ridge 16 makedev_sample
        (sample_dir 16 [97, 108, 112, 104, 97, 98, 101, 116, 97] [])
        [78, 77, 12, 1, 0, 103, 97, 109, 109, 97, 97, 97]
      = (Status.OK, sample_dir 16 [97, 108, 112, 104, 97, 98, 101, 116, 97] []) :=
  C9_nm_overflow_dropped 16 makedev_sample
    (sample_dir 16 [97, 108, 112, 104, 97, 98, 101, 116, 97] [])
    [78, 77, 12, 1, 0, 103, 97, 109, 109, 97, 97, 97] (by decide) (by decide)

/-! ## C10: the PX entry -/

theorem or_and_mask (a b c : Nat) : (a ||| b) &&& c = (a &&& c) ||| (b &&& c) := by
  apply Nat.eq_of_testBit_eq
  intro i
  simp only [Nat.testBit_and, Nat.testBit_or, Bool.and_or_distrib_right]

/-- A mode made of type bits and permission bits has these type bits. -/
theorem merged_type_bits (t m : Nat) :
    ((t &&& S_IFMT) ||| (m &&& 0o7777)) &&& S_IFMT = t &&& S_IFMT := by
  rw [or_and_mask, Nat.and_assoc, Nat.and_self, Nat.and_assoc]
  have : (0o7777 : Nat) &&& S_IFMT = 0 := by decide
  rw [this, Nat.and_zero, Nat.or_zero]

/-- A mode made of type bits and permission bits has these permission bits. -/
theorem merged_perm_bits (t m : Nat) :
    ((t &&& S_IFMT) ||| (m &&& 0o7777)) &&& 0o7777 = m &&& 0o7777 := by
  rw [or_and_mask, Nat.and_assoc, Nat.and_assoc, Nat.and_self]
  have : S_IFMT &&& (0o7777 : Nat) = 0 := by decide
  rw [this, Nat.and_zero, Nat.zero_or]

/-- C10: for a PX entry that passes its gate, with `m`, `u`, `g` the 32-bit values
made (least significant byte first) of the bytes at offsets 4..7, 20..23 and 28..31,
the call returns `OK` and changes the record in `d_mode = (t & S_IFMT) | (m & 07777)`,
`uid = u`, `gid = g` only, where `t = m` when `m & S_IFMT` is one of S_IFCHR (0020000),
S_IFBLK (0060000), S_IFREG (0100000), S_IFDIR (0040000), S_IFLNK (0120000) and `t` is
the prior mode otherwise (S_IFMT = 0170000). So the low 12 bits after the call are those
of `m`, the type bits are those of `m` for a supported type and those of the prior mode
for any other type. -/
theorem C10_px_merge (C : Nat) (makedev : Nat → Nat → Nat) (dir : rrii_dir_record)
    (buffer : List Nat) (m u g : Nat)
    (hgate : rd8 buffer 0 = 80 ∧ rd8 buffer 1 = 88 ∧ rd8 buffer 2 ≥ 36 ∧ rd8 buffer 3 ≥ 1)
    (hm : m = rd8 buffer 4 + 256 * rd8 buffer 5 + 65536 * rd8 buffer 6
      + 16777216 * rd8 buffer 7)
    (hu : u = rd8 buffer 20 + 256 * rd8 buffer 21 + 65536 * rd8 buffer 22
      + 16777216 * rd8 buffer 23)
    (hg : g = rd8 buffer 28 + 256 * rd8 buffer 29 + 65536 * rd8 buffer 30
      + 16777216 * rd8 buffer 31) :
    parse_susp_rock_ridge C makedev dir buffer =
      (Status.OK, { dir with
        d_mode :=
          ((if m &&& 0o170000 = 0o020000 ∨ m &&& 0o170000 = 0o060000 ∨
                m &&& 0o170000 = 0o100000 ∨ m &&& 0o170000 = 0o040000 ∨
                m &&& 0o170000 = 0o120000 then m else dir.d_mode) &&& 0o170000)
            ||| (m &&& 0o7777)
        uid := u
        gid := g }) ∧
    (parse_susp_rock_ridge C makedev dir buffer).2.d_mode &&& 0o7777 = m &&& 0o7777 ∧
    (m &&& 0o170000 = 0o020000 ∨ m &&& 0o170000 = 0o060000 ∨ m &&& 0o170000 = 0o100000 ∨
        m &&& 0o170000 = 0o040000 ∨ m &&& 0o170000 = 0o120000 →
      (parse_susp_rock_ridge C makedev dir buffer).2.d_mode &&& 0o170000
        = m &&& 0o170000) ∧
    (¬ (m &&& 0o170000 = 0o020000 ∨ m &&& 0o170000 = 0o060000 ∨ m &&& 0o170000 = 0o100000 ∨
        m &&& 0o170000 = 0o040000 ∨ m &&& 0o170000 = 0o120000) →
      (parse_susp_rock_ridge C makedev dir buffer).2.d_mode &&& 0o170000
        = dir.d_mode &&& 0o170000) := by
  have em : rd32 buffer 4 = m := by rw [hm]; rfl
  have eu : rd32 buffer 20 = u := by rw [hu]; rfl
  have eg : rd32 buffer 28 = g := by rw [hg]; rfl
  rw [parse_PX C makedev dir buffer hgate, em, eu, eg]
  simp only []
  by_cases h : m &&& 0o170000 = 0o020000 ∨ m &&& 0o170000 = 0o060000 ∨
      m &&& 0o170000 = 0o100000 ∨ m &&& 0o170000 = 0o040000 ∨ m &&& 0o170000 = 0o120000
  · have h' : m &&& S_IFMT = S_IFCHR ∨ m &&& S_IFMT = S_IFBLK ∨ m &&& S_IFMT = S_IFREG ∨
        m &&& S_IFMT = S_IFDIR ∨ m &&& S_IFMT = S_IFLNK := h
    rw [if_pos h', if_pos h]
    exact ⟨rfl, merged_perm_bits _ _, fun _ => merged_type_bits _ _,
      fun hn => absurd h hn⟩
  · have h' : ¬ (m &&& S_IFMT = S_IFCHR ∨ m &&& S_IFMT = S_IFBLK ∨ m &&& S_IFMT = S_IFREG ∨
        m &&& S_IFMT = S_IFDIR ∨ m &&& S_IFMT = S_IFLNK) := h
    rw [if_neg h', if_neg h]
    exact ⟨rfl, merged_perm_bits _ _, fun hp => absurd hp h,
      fun _ => merged_type_bits _ _⟩

/-- C10 at PX entries of length 36 with uid 1000 and gid 100, on the sample record of
mode 0100644: the modes of a character device, a block device, a regular file, a
directory and a symbolic link are adopted whole; of the mode 0010755 of a FIFO only the
permission bits are, the type stays that of a regular file. -/
theorem C10_px_merge_witness :
    (parse_susp_rock_ridge 256 makedev_sample (sample_dir 256 [] [])
        (px_entry 0o020600 1000 100)
      = (Status.OK, { sample_dir 256 [] [] with
          d_mode := 0o020600, uid := 1000, gid := 100 })) ∧
    (parse_susp_rock_ridge 256 makedev_sample (sample_dir 256 [] [])
        (px_entry 0o060660 1000 100)
      = (Status.OK, { sample_dir 256 [] [] with
          d_mode := 0o060660, uid := 1000, gid := 100 })) ∧
    (parse_susp_rock_ridge 256 makedev_sample (sample_dir 256 [] [])
        (px_entry 0o100600 1000 100)
      = (Status.OK, { sample_dir 256 [] [] with
          d_mode := 0o100600, uid := 1000, gid := 100 })) ∧
    (parse_susp_rock_ridge 256 makedev_sample (sample_dir 256 [] [])
        (px_entry 0o040755 1000 100)
      = (Status.OK, { sample_dir 256 [] [] with
          d_mode := 0o040755, uid := 1000, gid := 100 })) ∧
    (parse_susp_rock_ridge 256 makedev_sample (sample_dir 256 [] [])
        (px_entry 0o120777 1000 100)
      = (Status.OK, { sample_dir 256 [] [] with
          d_mode := 0o120777, uid := 1000, gid := 100 })) ∧
    (parse_susp_rock_ridge 256 makedev_sample (sample_dir 256 [] [])
        (px_entry 0o010755 1000 100)
      = (Status.OK, { sample_dir 256 [] [] with
          d_mode := 0o100755, uid := 1000, gid := 100 })) :=
  ⟨(C10_px_merge 256 makedev_sample (sample_dir 256 [] []) (px_entry 0o020600 1000 100)
      0o020600 1000 100 (by decide) (by decide) (by decide) (by decide)).1,
   (C10_px_merge 256 makedev_sample (sample_dir 256 [] []) (px_entry 0o060660 1000 100)
      0o060660 1000 100 (by decide) (by decide) (by decide) (by decide)).1,
   (C10_px_merge 256 makedev_sample (sample_dir 256 [] []) (px_entry 0o100600 1000 100)
      0o100600 1000 100 (by decide) (by decide) (by decide) (by decide)).1,
   (C10_px_merge 256 makedev_sample (sample_dir 256 [] []) (px_entry 0o040755 1000 100)
      0o040755 1000 100 (by decide) (by decide) (by decide) (by decide)).1,
   (C10_px_merge 256 makedev_sample (sample_dir 256 [] []) (px_entry 0o120777 1000 100)
      0o120777 1000 100 (by decide) (by decide) (by decide) (by decide)).1,
   (C10_px_merge 256 makedev_sample (sample_dir 256 [] []) (px_entry 0o010755 1000 100)
      0o010755 1000 100 (by decide) (by decide) (by decide) (by decide)).1⟩

/-! ## C11, C12, C14: TF entries -/

theorem tf_bit_le_one (flags b : Nat) : tf_bit flags b ≤ 1 := by
  unfold tf_bit; split_ifs <;> omega

/-- One timestamp step, started at the offset that the set bits below `b` which
fit have led to. -/
theorem tf_step_spec (buffer : List Nat) (len flags b : Nat) (field : List Nat)
    (hl : 5 ≤ len) :
    tf_step buffer len flags b field (5 + 7 * min (tf_count flags b) ((len - 5) / 7))
      = (if tf_bit flags b = 1 ∧ tf_count flags b < (len - 5) / 7 then
           memcpy7 buffer (5 + 7 * tf_count flags b) else field,
         5 + 7 * min (tf_count flags (b + 1)) ((len - 5) / 7)) := by
  have hb : tf_bit flags b = if flags &&& (1 <<< b) ≠ 0 then 1 else 0 := rfl
  unfold tf_step
  simp only [tf_count, ISO9660_SIZE_DATE7]
  by_cases hs : flags &&& (1 <<< b) ≠ 0
  · rw [if_pos hs] at hb
    rcases Nat.lt_or_ge (tf_count flags b) ((len - 5) / 7) with hc | hc
    · have hd : 7 * ((len - 5) / 7) ≤ len - 5 := Nat.mul_div_le _ _
      rw [Nat.min_eq_left (le_of_lt hc), hb, Nat.min_eq_left (by omega),
        if_pos ⟨hs, by omega⟩, if_pos ⟨rfl, hc⟩]
      congr 1
    · have hd : len - 5 < 7 * ((len - 5) / 7 + 1) := Nat.lt_mul_div_succ _ (by decide)
      rw [Nat.min_eq_right hc, hb, Nat.min_eq_right (by omega),
        if_neg (by omega), if_neg (by omega)]
  · rw [if_neg hs] at hb
    rw [hb, if_neg (fun h => hs h.1), if_neg (by omega), Nat.add_zero]


theorem tf_count_lt_total (flags b : Nat) (hb : b < 4) (hs : tf_bit flags b = 1) :
    tf_count flags b < tf_count flags 4 := by
  have h0 := tf_bit_le_one flags 0
  have h1 := tf_bit_le_one flags 1
  have h2 := tf_bit_le_one flags 2
  have h3 := tf_bit_le_one flags 3
  have e4 : tf_count flags 4
      = tf_bit flags 0 + tf_bit flags 1 + tf_bit flags 2 + tf_bit flags 3 := by
    simp [tf_count]
  have hb' : b = 0 ∨ b = 1 ∨ b = 2 ∨ b = 3 := by omega
  rcases hb' with rfl | rfl | rfl | rfl <;> simp only [tf_count] at * <;> omega

theorem tf_field_min (buffer : List Nat) (flags k b : Nat) (old : List Nat) (hb : b < 4) :
    tf_field buffer flags (min (tf_count flags 4) k) b old
      = if tf_bit flags b = 1 ∧ tf_count flags b < k then
          memcpy7 buffer (5 + 7 * tf_count flags b) else old := by
  unfold tf_field
  by_cases hs : tf_bit flags b = 1
  · have := tf_count_lt_total flags b hb hs
    by_cases hk : tf_count flags b < k
    · rw [if_pos ⟨hs, lt_min this hk⟩, if_pos ⟨hs, hk⟩]
    · rw [if_neg (fun h => hk (lt_of_lt_of_le h.2 (min_le_right _ _))),
        if_neg (fun h => hk h.2)]
  · rw [if_neg (fun h => hs h.1), if_neg (fun h => hs h.1)]

/-- The TF branch on the short format, field by field. -/
theorem parse_TF_short (C : Nat) (makedev : Nat → Nat → Nat) (dir : rrii_dir_record)
    (buffer : List Nat)
    (hgate : rd8 buffer 0 = 84 ∧ rd8 buffer 1 = 70 ∧ rd8 buffer 2 ≥ 5 ∧ rd8 buffer 3 ≥ 1)
    (hshort : rd8 buffer 5 &&& (1 <<< 7) = 0) :
    parse_susp_rock_ridge C makedev dir buffer =
      (Status.OK, { dir with
        birthtime := tf_field buffer (rd8 buffer 5)
          (min (tf_count (rd8 buffer 5) 4) ((rd8 buffer 2 - 5) / 7)) 0 dir.birthtime
        mtime := tf_field buffer (rd8 buffer 5)
          (min (tf_count (rd8 buffer 5) 4) ((rd8 buffer 2 - 5) / 7)) 1 dir.mtime
        atime := tf_field buffer (rd8 buffer 5)
          (min (tf_count (rd8 buffer 5) 4) ((rd8 buffer 2 - 5) / 7)) 2 dir.atime
        ctime := tf_field buffer (rd8 buffer 5)
          (min (tf_count (rd8 buffer 5) 4) ((rd8 buffer 2 - 5) / 7)) 3 dir.ctime }) := by
  rw [parse_TF C makedev dir buffer hgate, if_neg (by rw [hshort]; decide)]
  have hl := hgate.2.2.1
  have s0 := tf_step_spec buffer (rd8 buffer 2) (rd8 buffer 5) 0 dir.birthtime hl
  have s1 := tf_step_spec buffer (rd8 buffer 2) (rd8 buffer 5) 1 dir.mtime hl
  have s2 := tf_step_spec buffer (rd8 buffer 2) (rd8 buffer 5) 2 dir.atime hl
  have s3 := tf_step_spec buffer (rd8 buffer 2) (rd8 buffer 5) 3 dir.ctime hl
  have e0 : 5 + 7 * min (tf_count (rd8 buffer 5) 0) ((rd8 buffer 2 - 5) / 7) = 5 := by
    simp [tf_count]
  rw [e0] at s0
  rw [s0]
  simp only []
  rw [s1]
  simp only []
  rw [s2]
  simp only []
  rw [s3]
  simp only []
  rw [tf_field_min _ _ _ 0 _ (by decide), tf_field_min _ _ _ 1 _ (by decide),
    tf_field_min _ _ _ 2 _ (by decide), tf_field_min _ _ _ 3 _ (by decide)]

theorem tf_count_mono (flags : Nat) {b b' : Nat} (h : b ≤ b') :
    tf_count flags b ≤ tf_count flags b' := by
  induction h with
  | refl => exact le_refl _
  | step _ ih => exact le_trans ih (Nat.le_add_right _ _)

/-- C11: a TF entry that passes its gate, with bit 7 of the flags byte (offset 5) clear
and `total_length >= 5 + 7 * j` for `j` the number of set bits among bits 0..3, gives
the field of each set bit, in the order birthtime, mtime, atime, ctime, the 7 bytes
`memcpy7 buffer (5 + 7 * i)` where `i` is the number of set bits below it, and leaves
the fields of clear bits as they were; with bits 0 and 2 set and 1 and 3 clear,
birthtime takes the bytes at offset 5, atime those at offset 12, and mtime and ctime
are untouched. -/
theorem C11_tf_ordering (C : Nat) (makedev : Nat → Nat → Nat) (dir : rrii_dir_record)
    (buffer : List Nat)
    (hgate : rd8 buffer 0 = 84 ∧ rd8 buffer 1 = 70 ∧ rd8 buffer 2 ≥ 5 ∧ rd8 buffer 3 ≥ 1)
    (hshort : rd8 buffer 5 &&& (1 <<< 7) = 0)
    (hlen : 5 + 7 * tf_count (rd8 buffer 5) 4 ≤ rd8 buffer 2) :
    parse_susp_rock_ridge C makedev dir buffer =
      (Status.OK, { dir with
        birthtime := if tf_bit (rd8 buffer 5) 0 = 1 then
            memcpy7 buffer (5 + 7 * tf_count (rd8 buffer 5) 0) else dir.birthtime
        mtime := if tf_bit (rd8 buffer 5) 1 = 1 then
            memcpy7 buffer (5 + 7 * tf_count (rd8 buffer 5) 1) else dir.mtime
        atime := if tf_bit (rd8 buffer 5) 2 = 1 then
            memcpy7 buffer (5 + 7 * tf_count (rd8 buffer 5) 2) else dir.atime
        ctime := if tf_bit (rd8 buffer 5) 3 = 1 then
            memcpy7 buffer (5 + 7 * tf_count (rd8 buffer 5) 3) else dir.ctime }) ∧
    (tf_bit (rd8 buffer 5) 0 = 1 ∧ tf_bit (rd8 buffer 5) 1 = 0 ∧
        tf_bit (rd8 buffer 5) 2 = 1 ∧ tf_bit (rd8 buffer 5) 3 = 0 →
      parse_susp_rock_ridge C makedev dir buffer =
        (Status.OK, { dir with
          birthtime := memcpy7 buffer 5, atime := memcpy7 buffer 12 })) := by
  have hk : min (tf_count (rd8 buffer 5) 4) ((rd8 buffer 2 - 5) / 7)
      = tf_count (rd8 buffer 5) 4 := by
    apply Nat.min_eq_left
    rw [Nat.le_div_iff_mul_le (by decide)]
    omega
  have hf : ∀ b old, b < 4 →
      tf_field buffer (rd8 buffer 5) (tf_count (rd8 buffer 5) 4) b old
        = if tf_bit (rd8 buffer 5) b = 1 then
            memcpy7 buffer (5 + 7 * tf_count (rd8 buffer 5) b) else old := by
    intro b old hb
    unfold tf_field
    by_cases hs : tf_bit (rd8 buffer 5) b = 1
    · rw [if_pos ⟨hs, tf_count_lt_total _ b hb hs⟩, if_pos hs]
    · rw [if_neg (fun h => hs h.1), if_neg hs]
  have e := parse_TF_short C makedev dir buffer hgate hshort
  rw [hk, hf 0 _ (by decide), hf 1 _ (by decide), hf 2 _ (by decide),
    hf 3 _ (by decide)] at e
  refine ⟨e, fun h => ?_⟩
  rw [e]
  obtain ⟨h0, h1, h2, h3⟩ := h
  simp [h0, h1, h2, h3, tf_count]

/-- C12: a TF entry that passes its gate and has bit 7 of the flags byte (offset 5) set
returns `OK` and leaves the whole record as it was. -/
theorem C12_tf_long_format_ignored (C : Nat) (makedev : Nat → Nat → Nat)
    (dir : rrii_dir_record) (buffer : List Nat)
    (hgate : rd8 buffer 0 = 84 ∧ rd8 buffer 1 = 70 ∧ rd8 buffer 2 ≥ 5 ∧ rd8 buffer 3 ≥ 1)
    (hlong : rd8 buffer 5 &&& (1 <<< 7) ≠ 0) :
    parse_susp_rock_ridge C makedev dir buffer = (Status.OK, dir) := by
  rw [parse_TF C makedev dir buffer hgate, if_pos hlong]

/-- C14: a TF entry that passes its gate, with bit 7 of the flags byte clear, writes
exactly the fields of the first `k` set bits among bits 0..3, with
`k = min (number of set bits) ((total_length - 5) / 7)`, each with the 7 bytes at offset
`5 + 7 * (number of set bits below it)`, and every other field keeps its value; so from
a set bit that is not written on, no field is written. -/
theorem C14_tf_truncation (C : Nat) (makedev : Nat → Nat → Nat) (dir : rrii_dir_record)
    (buffer : List Nat)
    (hgate : rd8 buffer 0 = 84 ∧ rd8 buffer 1 = 70 ∧ rd8 buffer 2 ≥ 5 ∧ rd8 buffer 3 ≥ 1)
    (hshort : rd8 buffer 5 &&& (1 <<< 7) = 0) :
    parse_susp_rock_ridge C makedev dir buffer =
      (Status.OK, { dir with
        birthtime := tf_field buffer (rd8 buffer 5)
          (min (tf_count (rd8 buffer 5) 4) ((rd8 buffer 2 - 5) / 7)) 0 dir.birthtime
        mtime := tf_field buffer (rd8 buffer 5)
          (min (tf_count (rd8 buffer 5) 4) ((rd8 buffer 2 - 5) / 7)) 1 dir.mtime
        atime := tf_field buffer (rd8 buffer 5)
          (min (tf_count (rd8 buffer 5) 4) ((rd8 buffer 2 - 5) / 7)) 2 dir.atime
        ctime := tf_field buffer (rd8 buffer 5)
          (min (tf_count (rd8 buffer 5) 4) ((rd8 buffer 2 - 5) / 7)) 3 dir.ctime }) ∧
    (∀ (b b' : Nat) (old : List Nat), b ≤ b' →
      min (tf_count (rd8 buffer 5) 4) ((rd8 buffer 2 - 5) / 7) ≤ tf_count (rd8 buffer 5) b →
      tf_field buffer (rd8 buffer 5)
        (min (tf_count (rd8 buffer 5) 4) ((rd8 buffer 2 - 5) / 7)) b' old = old) := by
  refine ⟨parse_TF_short C makedev dir buffer hgate hshort, fun b b' old hbb hk => ?_⟩
  unfold tf_field
  rw [if_neg]
  intro h
  have := tf_count_mono (rd8 buffer 5) hbb
  omega

/-- C11 at a TF entry of length 19 with flags 5 (bits 0 and 2): birthtime takes the
bytes 5..11, atime the bytes 12..18, mtime and ctime stay. -/
theorem C11_tf_ordering_witness :
    parse_susp_rock_ridge 256 makedev_sample (sample_dir 256 [] [])
        [84, 70, 19, 1, 0, 5, 1, 2, 3, 4, 5, 6, 7, 8, 9, 10, 11, 12, 13]
      = (Status.OK, { sample_dir 256 [] [] with
          birthtime := [5, 1, 2, 3, 4, 5, 6], atime := [7, 8, 9, 10, 11, 12, 13] }) :=
  (C11_tf_ordering 256 makedev_sample (sample_dir 256 [] [])
    [84, 70, 19, 1, 0, 5, 1, 2, 3, 4, 5, 6, 7, 8, 9, 10, 11, 12, 13]
    (by decide) (by decide) (by decide)).2 (by decide)

/-- C12 at a TF entry of length 19 with flags 0x85 (bits 7, 2 and 0). -/
theorem C12_tf_long_format_ignored_witness :
    parse_susp_rock_ridge 256 makedev_sample (sample_dir 256 [] [])
        [84, 70, 19, 1, 0, 0x85, 1, 2, 3, 4, 5, 6, 7, 8, 9, 10, 11, 12, 13]
      = (Status.OK, sample_dir 256 [] []) :=
  C12_tf_long_format_ignored 256 makedev_sample (sample_dir 256 [] [])
    [84, 70, 19, 1, 0, 0x85, 1, 2, 3, 4, 5, 6, 7, 8, 9, 10, 11, 12, 13]
    (by decide) (by decide)

/-- C14 at a TF entry of length 20 with flags 15 (bits 0 to 3): `k = min 4 (15 / 7) = 2`,
so birthtime and mtime are written, atime and ctime are not. -/
theorem C14_tf_truncation_witness :
    parse_susp_rock_ridge 256 makedev_sample (sample_dir 256 [] [])
        [84, 70, 20, 1, 0, 15, 1, 2, 3, 4, 5, 6, 7, 8, 9, 10, 11, 12, 13, 14]
      = (Status.OK, { sample_dir 256 [] [] with
          birthtime := [15, 1, 2, 3, 4, 5, 6], mtime := [7, 8, 9, 10, 11, 12, 13] }) :=
  (C14_tf_truncation 256 makedev_sample (sample_dir 256 [] [])
    [84, 70, 20, 1, 0, 15, 1, 2, 3, 4, 5, 6, 7, 8, 9, 10, 11, 12, 13, 14]
    (by decide) (by decide)).1

/-! ## C13 and C15: PN entries, the fields that a tag writes -/

/-- Which fields a call can change, by the signature of the entry: every field group
keeps its value unless the entry carries the tag that writes it. -/
theorem parse_frame (C : Nat) (makedev : Nat → Nat → Nat) (dir : rrii_dir_record)
    (buffer : List Nat) :
    (¬ (rd8 buffer 0 = 80 ∧ rd8 buffer 1 = 88) →
      (parse_susp_rock_ridge C makedev dir buffer).2.d_mode = dir.d_mode ∧
      (parse_susp_rock_ridge C makedev dir buffer).2.uid = dir.uid ∧
      (parse_susp_rock_ridge C makedev dir buffer).2.gid = dir.gid) ∧
    (¬ (rd8 buffer 0 = 80 ∧ rd8 buffer 1 = 78) →
      (parse_susp_rock_ridge C makedev dir buffer).2.rdev = dir.rdev) ∧
    (¬ (rd8 buffer 0 = 83 ∧ rd8 buffer 1 = 76) →
      (parse_susp_rock_ridge C makedev dir buffer).2.slink_rrip = dir.slink_rrip) ∧
    (¬ (rd8 buffer 0 = 78 ∧ rd8 buffer 1 = 77) →
      (parse_susp_rock_ridge C makedev dir buffer).2.file_id_rrip = dir.file_id_rrip) ∧
    (¬ (rd8 buffer 0 = 84 ∧ rd8 buffer 1 = 70) →
      (parse_susp_rock_ridge C makedev dir buffer).2.birthtime = dir.birthtime ∧
      (parse_susp_rock_ridge C makedev dir buffer).2.mtime = dir.mtime ∧
      (parse_susp_rock_ridge C makedev dir buffer).2.atime = dir.atime ∧
      (parse_susp_rock_ridge C makedev dir buffer).2.ctime = dir.ctime) := by
  rcases parse_accepted_or_not C makedev dir buffer with ⟨ha, _⟩ | ⟨_, e⟩
  · rcases ha with h | h | h | ⟨h | h, h'⟩ | h
    · rw [parse_skip C makedev dir buffer h]
      exact ⟨fun _ => ⟨rfl, rfl, rfl⟩, fun _ => rfl, fun _ => rfl, fun _ => rfl,
        fun _ => ⟨rfl, rfl, rfl, rfl⟩⟩
    · rw [parse_PX C makedev dir buffer h]
      exact ⟨fun hn => absurd ⟨h.1, h.2.1⟩ hn, fun _ => rfl, fun _ => rfl, fun _ => rfl,
        fun _ => ⟨rfl, rfl, rfl, rfl⟩⟩
    · rw [parse_PN C makedev dir buffer h]
      exact ⟨fun _ => ⟨rfl, rfl, rfl⟩, fun hn => absurd ⟨h.1, h.2.1⟩ hn, fun _ => rfl,
        fun _ => rfl, fun _ => ⟨rfl, rfl, rfl, rfl⟩⟩
    · rw [parse_SL C makedev dir buffer ⟨h.1, h.2, h'⟩]
      exact ⟨fun _ => ⟨rfl, rfl, rfl⟩, fun _ => rfl, fun hn => absurd h hn,
        fun _ => rfl, fun _ => ⟨rfl, rfl, rfl, rfl⟩⟩
    · rw [parse_NM C makedev dir buffer ⟨h.1, h.2, h'⟩]
      split_ifs
      · exact ⟨fun _ => ⟨rfl, rfl, rfl⟩, fun _ => rfl, fun _ => rfl,
          fun hn => absurd h hn, fun _ => ⟨rfl, rfl, rfl, rfl⟩⟩
      · exact ⟨fun _ => ⟨rfl, rfl, rfl⟩, fun _ => rfl, fun _ => rfl, fun _ => rfl,
          fun _ => ⟨rfl, rfl, rfl, rfl⟩⟩
    · rw [parse_TF C makedev dir buffer h]
      split_ifs
      · exact ⟨fun _ => ⟨rfl, rfl, rfl⟩, fun _ => rfl, fun _ => rfl, fun _ => rfl,
          fun _ => ⟨rfl, rfl, rfl, rfl⟩⟩
      · exact ⟨fun _ => ⟨rfl, rfl, rfl⟩, fun _ => rfl, fun _ => rfl, fun _ => rfl,
          fun hn => absurd ⟨h.1, h.2.1⟩ hn⟩
  · rw [e]
    exact ⟨fun _ => ⟨rfl, rfl, rfl⟩, fun _ => rfl, fun _ => rfl, fun _ => rfl,
      fun _ => ⟨rfl, rfl, rfl, rfl⟩⟩

/-- C13: a PN entry that passes its gate returns `OK` and sets `rdev` to
`makedev major minor`, with the 32-bit values at offsets 4 and 12; an entry of any other
signature leaves `rdev` as it was. -/
theorem C13_pn_sets_rdev (C : Nat) (makedev : Nat → Nat → Nat) (dir : rrii_dir_record)
    (buffer : List Nat) :
    (rd8 buffer 0 = 80 ∧ rd8 buffer 1 = 78 ∧ rd8 buffer 2 ≥ 20 ∧ rd8 buffer 3 ≥ 1 →
      (parse_susp_rock_ridge C makedev dir buffer).1 = Status.OK ∧
      (parse_susp_rock_ridge C makedev dir buffer).2.rdev
        = makedev (rd32 buffer 4) (rd32 buffer 12)) ∧
    (¬ (rd8 buffer 0 = 80 ∧ rd8 buffer 1 = 78) →
      (parse_susp_rock_ridge C makedev dir buffer).2.rdev = dir.rdev) := by
  refine ⟨fun h => ?_, (parse_frame C makedev dir buffer).2.1⟩
  rw [parse_PN C makedev dir buffer h]
  exact ⟨rfl, rfl⟩

/-- C13 at a PN entry of length 20 with major 3 and minor 5. -/
theorem C13_pn_sets_rdev_witness :
    (parse_susp_rock_ridge 256 makedev_sample (sample_dir 256 [] [])
      [80, 78, 20, 1, 3, 0, 0, 0, 0, 0, 0, 3, 5, 0, 0, 0, 0, 0, 0, 5]).2.rdev
      = makedev_sample 3 5 :=
  ((C13_pn_sets_rdev 256 makedev_sample (sample_dir 256 [] [])
    [80, 78, 20, 1, 3, 0, 0, 0, 0, 0, 0, 3, 5, 0, 0, 0, 0, 0, 0, 5]).1 (by decide)).2

set_option maxRecDepth 100000 in
/-- C15 fails on the code for the SL tag: the link buffer of capacity 256 holds "a", a
NUL at index 1 and non-zero bytes after it, and the two bytes that follow the buffer in
memory are zero; the SL entry with the root component (flags 8) passes its gate and
returns `OK`; every other field of the record is as before, but the two bytes after the
buffer, at indices 256 and 257, now hold "/" and NUL: the call changed memory that is
not `slink_rrip`. -/
theorem C15_sl_changes_memory_after_slink_rrip :
    sample_dir_unfilled.slink_rrip.length = 258 ∧
    sample_dir_unfilled.slink_rrip.drop 256 = [0, 0] ∧
    parse_susp_rock_ridge 256 makedev_sample sample_dir_unfilled [83, 76, 7, 1, 0, 8, 0]
      = (Status.OK, { sample_dir_unfilled with
          slink_rrip := 97 :: 47 :: (List.replicate 254 120 ++ [47, 0]) }) ∧
    (parse_susp_rock_ridge 256 makedev_sample sample_dir_unfilled
      [83, 76, 7, 1, 0, 8, 0]).2.slink_rrip.drop 256 = [47, 0] := by
  have e : parse_susp_rock_ridge 256 makedev_sample sample_dir_unfilled
      [83, 76, 7, 1, 0, 8, 0]
      = (Status.OK, { sample_dir_unfilled with
          slink_rrip := 97 :: 47 :: (List.replicate 254 120 ++ [47, 0]) }) := by
    rw [parse_SL 256 makedev_sample sample_dir_unfilled [83, 76, 7, 1, 0, 8, 0] (by decide)]
    simp only [parse_susp_rock_ridge_sl]
    rw [sl_loop, sl_loop]
    rfl
  refine ⟨rfl, rfl, e, ?_⟩
  rw [e]
  rfl

/-! ## C16 and C17: append-only buffers, the NM flags byte -/

/-- C16: on a record whose two text buffers are zero-filled after their texts, the text
of `file_id_rrip` before a call is a prefix of its text after the call, and so is the
text of `slink_rrip`. -/
theorem C16_append_only (C : Nat) (makedev : Nat → Nat → Nat) (dir : rrii_dir_record)
    (buffer name link tailF tailS : List Nat)
    (hF : dir.file_id_rrip = zbuf C name tailF) (hname : NulFree name)
    (hnlen : name.length < C)
    (hS : dir.slink_rrip = zbuf C link tailS) (hlink : NulFree link)
    (hllen : link.length < C) :
    cstr dir.file_id_rrip <+: cstr (parse_susp_rock_ridge C makedev dir buffer).2.file_id_rrip ∧
    cstr dir.slink_rrip <+: cstr (parse_susp_rock_ridge C makedev dir buffer).2.slink_rrip := by
  rw [parse_file_id_rrip, parse_slink_rrip]
  constructor
  · split_ifs with h
    · rw [hF, strlen_zbuf C name tailF hname hnlen] at h ⊢
      rw [strlcpy_zbuf C name tailF buffer 5 _ (by omega), cstr_zbuf C name tailF hname hnlen,
        cstr_zbuf C _ tailF (hname.append (nulFree_take_cstr _ _))]
      · exact List.prefix_append _ _
      · have := List.length_take_le (rd8 buffer 2 - 5) (cstr (buffer.drop 5))
        simp only [List.length_append]
        omega
    · exact List.prefix_refl _
  · split_ifs with h
    · obtain ⟨s', a, b, c, d⟩ := sl_loop_zbuf_inv C (buffer.drop 5) ((rd8 buffer 2 : Int) - 5)
        tailS _ 0 link (le_refl _) hlink hllen
      rw [hS, d, cstr_zbuf C link tailS hlink hllen, cstr_zbuf C s' tailS a b]
      exact c
    · exact List.prefix_refl _

/-- C16 at capacity 256: the link text "a" and an SL entry with the component "bc". -/
theorem C16_append_only_witness :
    cstr (sample_dir 256 [] [97]).slink_rrip <+:
      cstr (parse_susp_rock_ridge 256 makedev_sample (sample_dir 256 [] [97])
        [83, 76, 9, 1, 0, 0, 2, 98, 99]).2.slink_rrip :=
  (C16_append_only 256 makedev_sample (sample_dir 256 [] [97])
    [83, 76, 9, 1, 0, 0, 2, 98, 99] [] [97] [] [] rfl (by decide) (by decide) rfl
    (by decide) (by decide)).2

theorem rd8_eq_of_getElem? (b1 b2 : List Nat) (i : Nat) (h : b1[i]? = b2[i]?) :
    rd8 b1 i = rd8 b2 i := by
  unfold rd8
  rw [List.getD_eq_getElem?_getD, List.getD_eq_getElem?_getD, h]

theorem drop_eq_of_getElem? (b1 b2 : List Nat) (n : Nat)
    (h : ∀ i, n ≤ i → b1[i]? = b2[i]?) : b1.drop n = b2.drop n := by
  apply List.ext_getElem?
  intro i
  rw [List.getElem?_drop, List.getElem?_drop]
  exact h (n + i) (Nat.le_add_right _ _)

/-- C17: two NM entries that agree on every byte except byte 4, the first of which
passes the gate, give the same status and the same record. -/
theorem C17_nm_ignores_flags (C : Nat) (makedev : Nat → Nat → Nat) (dir : rrii_dir_record)
    (b1 b2 : List Nat)
    (hgate : rd8 b1 0 = 78 ∧ rd8 b1 1 = 77 ∧ rd8 b1 2 > 5 ∧ rd8 b1 3 ≥ 1)
    (hagree : ∀ i, i ≠ 4 → b1[i]? = b2[i]?) :
    parse_susp_rock_ridge C makedev dir b1 = parse_susp_rock_ridge C makedev dir b2 := by
  have e0 := rd8_eq_of_getElem? b1 b2 0 (hagree 0 (by decide))
  have e1 := rd8_eq_of_getElem? b1 b2 1 (hagree 1 (by decide))
  have e2 := rd8_eq_of_getElem? b1 b2 2 (hagree 2 (by decide))
  have e3 := rd8_eq_of_getElem? b1 b2 3 (hagree 3 (by decide))
  have ed := drop_eq_of_getElem? b1 b2 5 (fun i hi => hagree i (by omega))
  have hgate2 : rd8 b2 0 = 78 ∧ rd8 b2 1 = 77 ∧ rd8 b2 2 > 5 ∧ rd8 b2 3 ≥ 1 := by
    rw [← e0, ← e1, ← e2, ← e3]; exact hgate
  rw [parse_NM C makedev dir b1 hgate, parse_NM C makedev dir b2 hgate2]
  simp only [strlcpy, e2, ed]

/-- C17 at two NM entries "ab" that differ in byte 4 (0 and 1) only. -/
theorem C17_nm_ignores_flags_witness :
    parse_susp_rock_ridge 256 makedev_sample (sample_dir 256 [] []) [78, 77, 7, 1, 0, 97, 98]
      = parse_susp_rock_ridge 256 makedev_sample (sample_dir 256 [] [])
          [78, 77, 7, 1, 1, 97, 98] :=
  C17_nm_ignores_flags 256 makedev_sample (sample_dir 256 [] []) [78, 77, 7, 1, 0, 97, 98]
    [78, 77, 7, 1, 1, 97, 98] (by decide)
    (fun i hi => by
      rcases i with _ | _ | _ | _ | _ | i
      · rfl
      · rfl
      · rfl
      · rfl
      · exact absurd rfl hi
      · rfl)

/-! ## C18: termination of the SL loop -/

/-- The traced loop computes the buffer of `sl_loop`, and two bytes of the payload
from the cursor on are there for each of its iterations. -/
theorem sl_loop_traced_spec (C : Nat) (buffer : List Nat) (length : Int) :
    ∀ (n offset : Nat) (slink : List Nat), (length - offset).toNat ≤ n →
      (sl_loop_traced C buffer length offset slink).1 = sl_loop C buffer length offset slink ∧
      2 * (sl_loop_traced C buffer length offset slink).2 ≤ (length - offset).toNat := by
  intro n
  induction n with
  | zero =>
    intro offset slink hn
    rw [sl_loop_traced, sl_loop, if_neg (by omega), if_neg (by omega)]
    exact ⟨rfl, Nat.zero_le _⟩
  | succ n ih =>
    intro offset slink hn
    rw [sl_loop_traced, sl_loop]
    by_cases hc : (offset : Int) + 2 ≤ length
    · rw [if_pos hc, if_pos hc]
      by_cases hb : (sl_iter C buffer length offset slink).2 = true
      · rw [if_pos hb, if_pos hb]
        obtain ⟨a, b⟩ := ih (offset + (rd8 buffer (offset + 1) + 2))
          (sl_iter C buffer length offset slink).1 (by push_cast; omega)
        refine ⟨a, ?_⟩
        simp only []
        push_cast at b
        omega
      · rw [if_neg hb, if_neg hb]
        refine ⟨rfl, ?_⟩
        simp only []
        omega
    · rw [if_neg hc, if_neg hc]
      exact ⟨rfl, Nat.zero_le _⟩

/-- C18: `parse_susp_rock_ridge_sl` is a total function of its arguments, and its loop
enters at most `length / 2` iterations: twice the number of iterations is at most
`length` (none when `length` is negative). -/
theorem C18_sl_terminates (C : Nat) (dir : rrii_dir_record) (buffer : List Nat)
    (length : Int) :
    (parse_susp_rock_ridge_sl C dir buffer length).slink_rrip
      = (sl_loop_traced C buffer length 0 dir.slink_rrip).1 ∧
    2 * (sl_loop_traced C buffer length 0 dir.slink_rrip).2 ≤ length.toNat ∧
    (0 ≤ length →
      ((sl_loop_traced C buffer length 0 dir.slink_rrip).2 : Int) ≤ length / 2) := by
  obtain ⟨a, b⟩ := sl_loop_traced_spec C buffer length _ 0 dir.slink_rrip (le_refl _)
  simp only [Nat.cast_zero, sub_zero] at b
  refine ⟨a.symm, b, fun h => ?_⟩
  omega

/-- C18 at the payload of three special components, length 6: three iterations. -/
theorem C18_sl_terminates_witness :
    (sl_loop_traced 256 [2, 0, 4, 0, 8, 0] 6 0 (sample_dir 256 [] []).slink_rrip).2 ≤ 3 := by
  have h := (C18_sl_terminates 256 (sample_dir 256 [] []) [2, 0, 4, 0, 8, 0] 6).2.1
  have e : (6 : Int).toNat = 6 := rfl
  omega

/-! ## C19: bytes past the total length -/

/-- The loop on a payload of length 2 whose one component announces 2 bytes: the two
bytes that follow the payload are copied. -/
theorem sl_loop_past_payload (C : Nat) (tail : List Nat) (x y : Nat) (hx : x ≠ 0)
    (hy : y ≠ 0) (hC : 4 ≤ C) :
    sl_loop C [0, 2, x, y] 2 0 (zbuf C [] tail) = zbuf C [x, y] tail := by
  have hit : sl_iter_txt C [0, 2, x, y] 2 0 [] = ([x, y], true) := by
    unfold sl_iter_txt
    rw [if_neg (by simp)]
    have h0 : rd8 [0, 2, x, y] 0 = 0 := rfl
    have h1 : rd8 [0, 2, x, y] (0 + 1) = 2 := rfl
    rw [h0, h1]
    unfold sl_switch_txt
    rw [if_pos (Or.inl (by decide)), if_neg]
    · simp [cstr, hx, hy]
    · simp only [List.length_nil, Nat.cast_ofNat, Nat.cast_zero, sub_zero]
      omega
  rw [sl_loop, if_pos (by decide),
    sl_iter_zbuf C _ _ _ [] tail (by decide) (by simp only [List.length_nil]; omega), hit]
  simp only [if_true]
  rw [sl_loop, if_neg]
  have h1 : rd8 [0, 2, x, y] (0 + 1) = 2 := rfl
  rw [h1]
  decide

/-- C19 fails on the code: two SL entries of total length 7 that agree on their first
7 bytes and differ in the two bytes after them leave different link texts, because
the component check compares `component_length` with `length - offset` and not with
the bytes left after the two-byte component header. -/
theorem C19_sl_reads_past_total_length :
    rd8 [83, 76, 7, 1, 0, 0, 2, 97, 98] 2 = 7 ∧
    rd8 [83, 76, 7, 1, 0, 0, 2, 99, 100] 2 = 7 ∧
    [83, 76, 7, 1, 0, 0, 2, 97, 98].take 7 = [83, 76, 7, 1, 0, 0, 2, 99, 100].take 7 ∧
    cstr (parse_susp_rock_ridge 256 makedev_sample (sample_dir 256 [] [])
      [83, 76, 7, 1, 0, 0, 2, 97, 98]).2.slink_rrip = [97, 98] ∧
    cstr (parse_susp_rock_ridge 256 makedev_sample (sample_dir 256 [] [])
      [83, 76, 7, 1, 0, 0, 2, 99, 100]).2.slink_rrip = [99, 100] := by
  refine ⟨rfl, rfl, rfl, ?_, ?_⟩
  · rw [parse_SL 256 makedev_sample (sample_dir 256 [] []) [83, 76, 7, 1, 0, 0, 2, 97, 98]
      (by decide)]
    have e : (parse_susp_rock_ridge_sl 256 (sample_dir 256 [] [])
        (List.drop 5 [83, 76, 7, 1, 0, 0, 2, 97, 98])
        ((rd8 [83, 76, 7, 1, 0, 0, 2, 97, 98] 2 : Int) - 5)).slink_rrip
        = zbuf 256 [97, 98] [] :=
      sl_loop_past_payload 256 [] 97 98 (by decide) (by decide) (by decide)
    simp only []
    rw [e]
    exact cstr_zbuf 256 _ [] (by decide) (by decide)
  · rw [parse_SL 256 makedev_sample (sample_dir 256 [] []) [83, 76, 7, 1, 0, 0, 2, 99, 100]
      (by decide)]
    have e : (parse_susp_rock_ridge_sl 256 (sample_dir 256 [] [])
        (List.drop 5 [83, 76, 7, 1, 0, 0, 2, 99, 100])
        ((rd8 [83, 76, 7, 1, 0, 0, 2, 99, 100] 2 : Int) - 5)).slink_rrip
        = zbuf 256 [99, 100] [] :=
      sl_loop_past_payload 256 [] 99 100 (by decide) (by decide) (by decide)
    simp only []
    rw [e]
    exact cstr_zbuf 256 _ [] (by decide) (by decide)

/-! ## C20: the terminator of the link buffer -/

/-- On a link buffer that holds only zero bytes from its first NUL up to the capacity
`C`, an SL entry that passes its gate leaves the first NUL at an index below `C` and
does not change the memory after the buffer. -/
theorem sl_entry_keeps_terminator_zero_filled (C : Nat) (makedev : Nat → Nat → Nat)
    (dir : rrii_dir_record) (buffer link tail : List Nat)
    (hS : dir.slink_rrip = zbuf C link tail) (hlink : NulFree link)
    (hllen : link.length < C)
    (hgate : rd8 buffer 0 = 83 ∧ rd8 buffer 1 = 76 ∧ rd8 buffer 2 > 5 ∧ rd8 buffer 3 ≥ 1) :
    strlen (parse_susp_rock_ridge C makedev dir buffer).2.slink_rrip < C ∧
    (parse_susp_rock_ridge C makedev dir buffer).2.slink_rrip[
      strlen (parse_susp_rock_ridge C makedev dir buffer).2.slink_rrip]? = some 0 ∧
    (parse_susp_rock_ridge C makedev dir buffer).2.slink_rrip.drop C = tail := by
  rw [parse_SL C makedev dir buffer hgate]
  obtain ⟨s', a, b, _, d⟩ := sl_loop_zbuf_inv C (buffer.drop 5) ((rd8 buffer 2 : Int) - 5)
    tail _ 0 link (le_refl _) hlink hllen
  have e : (parse_susp_rock_ridge_sl C dir (buffer.drop 5)
      ((rd8 buffer 2 : Int) - 5)).slink_rrip = zbuf C s' tail := by
    simp only [parse_susp_rock_ridge_sl, hS]
    exact d
  simp only []
  rw [e]
  exact BufInv_facts C tail _ ⟨s', a, b, rfl⟩

set_option maxRecDepth 100000 in
/-- C20 fails on the code: the link buffer of capacity 256 holds "a", a NUL at index 1
and non-zero bytes after it, and the two bytes that follow the buffer are zero; the SL
entry with the component "." passes its gate and returns `OK`; the separator has
replaced the NUL, `strcat` has looked for the end of the string from index 2 on, and
after the call the first NUL is at index 257 and the two bytes after the buffer hold
"." and NUL. -/
theorem C20_sl_stores_past_capacity :
    sample_dir_unfilled.slink_rrip[1]? = some 0 ∧
    sample_dir_unfilled.slink_rrip.drop 256 = [0, 0] ∧
    (parse_susp_rock_ridge 256 makedev_sample sample_dir_unfilled
      [83, 76, 7, 1, 0, 2, 0]).1 = Status.OK ∧
    strlen (parse_susp_rock_ridge 256 makedev_sample sample_dir_unfilled
      [83, 76, 7, 1, 0, 2, 0]).2.slink_rrip = 257 ∧
    (parse_susp_rock_ridge 256 makedev_sample sample_dir_unfilled
      [83, 76, 7, 1, 0, 2, 0]).2.slink_rrip.drop 256 = [46, 0] := by
  have e : (parse_susp_rock_ridge 256 makedev_sample sample_dir_unfilled
      [83, 76, 7, 1, 0, 2, 0]).2.slink_rrip
      = 97 :: 47 :: (List.replicate 254 120 ++ [46, 0]) := by
    rw [parse_SL 256 makedev_sample sample_dir_unfilled [83, 76, 7, 1, 0, 2, 0] (by decide)]
    simp only [parse_susp_rock_ridge_sl]
    rw [sl_loop, sl_loop]
    rfl
  refine ⟨rfl, rfl, ?_, ?_, ?_⟩
  · rw [parse_SL 256 makedev_sample sample_dir_unfilled [83, 76, 7, 1, 0, 2, 0] (by decide)]
  · rw [e]; rfl
  · rw [e]; rfl

end Isofs
